import Mathlib

/-!
Shallow embedding of the `antennas` repository (ITU antenna radiation-pattern
models) and proofs about its specification claims.

Conventions of the embedding:
* Python floats are modelled as real numbers (`ℝ`); float rounding artifacts
  are outside the model, all arithmetic is exact.
* A Python instance's `self.params` dict is a structure of `Option` fields:
  `none` means the key is absent.  Reading an absent key (Python `KeyError`)
  is modelled by `keyGet` returning an error.
* Python exceptions are modelled by `Except PyErr`; the constructors name the
  error taxonomy of the spec plus the raw Python error kinds.
* Python `x % m` on floats (for positive `m`) is `pyMod`, floored remainder.
* Python `round(x, 2)` is `round2`, round-half-to-even on the exact real.
* Python `(negative) ** 0.5` yields a `complex`; code paths where that happens
  are modelled explicitly (a later comparison with the complex value raises
  `TypeError`).  `math.sqrt` of a negative argument raises `ValueError`.
-/

set_option maxRecDepth 10000

noncomputable section

namespace Antennas

/-- Python float modulo for a positive modulus: `x % m = x - m*⌊x/m⌋`. -/
def pyMod (x m : ℝ) : ℝ := x - m * ⌊x / m⌋

/-- Base-10 logarithm, Python `math.log10`. -/
def log10 (x : ℝ) : ℝ := Real.logb 10 x

/-- Python `round(x, 2)`: rounding to two decimals, ties to the even cent. -/
def round2 (x : ℝ) : ℝ :=
  if Int.fract (100 * x) = 1 / 2 then
    (if Even ⌊(100 : ℝ) * x⌋ then ((⌊(100 : ℝ) * x⌋ : ℤ) : ℝ) / 100
     else ((⌊(100 : ℝ) * x⌋ : ℤ) + 1 : ℝ) / 100)
  else ((round ((100 : ℝ) * x) : ℤ) : ℝ) / 100

/-- Error taxonomy: the spec's names for the validation errors, plus the raw
Python error kinds for errors the code raises without a dedicated check. -/
inductive PyErr where
  | missingParameter
  | outOfRange
  | notAllowed
  | incompleteParameters
  | invalidDerivedValue
  | keyError
  | typeError
  | valueError
deriving DecidableEq

/-- Reading `self.params[k]`: `KeyError` when the key is absent. -/
def keyGet {α : Type} : Option α → Except PyErr α
  | none => .error .keyError
  | some a => .ok a

/-- Frequency bands used by ITUF699 (`'0.1-1 GHz'`, `'1-70 GHz'`, `'70-86 GHz'`). -/
inductive FreqBand where
  | low | mid | high
deriving DecidableEq

/-! ### ITUF699 (src/antenna_models/ituf699.py) -/

/-- The `self.params` dict of an `ITUF699` instance: the four declared inputs
plus the two keys added by `_post_set_params`. -/
structure F699Dict where
  oper_freq_mhz : Option ℝ
  diameter_m : Option ℝ
  max_gain_dbi : Option ℝ
  beamwidth_deg : Option ℝ
  freq_band : Option FreqBand
  d_to_l : Option ℝ

/-- A freshly constructed instance: `self.params = {}`. -/
def F699Dict.empty : F699Dict := ⟨none, none, none, none, none, none⟩

/-- The keyword arguments of `ITUF699.set_params` (only schema-declared keys;
unrecognized keys are dropped by the loop anyway). -/
structure F699Kwargs where
  oper_freq_mhz : Option ℝ
  diameter_m : Option ℝ
  max_gain_dbi : Option ℝ
  beamwidth_deg : Option ℝ

/-- Range check of one optional parameter (category `optional` in `PARAMS`):
absent stays unset, a present value must lie in the inclusive range. -/
def checkOpt (lo hi : ℝ) : Option ℝ → Except PyErr (Option ℝ)
  | none => .ok none
  | some x => if lo ≤ x ∧ x ≤ hi then .ok (some x) else .error .outOfRange

/-- The validation loop of `BaseAntenna.set_params` specialised to
`ITUF699.PARAMS`, in declared order; produces the validated dict (derived
keys still unset) or the first violation.  Type checks are vacuous in the
embedding because every value is a real number. -/
def f699validate (kw : F699Kwargs) : Except PyErr F699Dict := do
  let f ← match kw.oper_freq_mhz with
    | none => Except.error PyErr.missingParameter
    | some f => Except.ok f
  if 100 ≤ f ∧ f ≤ 86000 then do
    let dm ← checkOpt 0.001 99.999 kw.diameter_m
    let mg ← checkOpt (-29.9) 89.9 kw.max_gain_dbi
    let bw ← checkOpt 0.001 179.999 kw.beamwidth_deg
    .ok ⟨some f, dm, mg, bw, none, none⟩
  else .error .outOfRange

/-- Wavelength (m) from frequency (MHz): `299.792458 / frequency`. -/
def wavelength (frequency : ℝ) : ℝ := 299.792458 / frequency

/-- `ITUF699.__d_to_l_from_g_max`: `10 ** ((g_max - 7.7) / 20)`. -/
def d_to_l_from_g_max (g_max : ℝ) : ℝ := (10 : ℝ) ^ ((g_max - 7.7) / 20)

/-- `ITUF699.__g_max_from_d_to_l`: `20*log10(d_to_l) + 7.7`. -/
def g_max_from_d_to_l (d_to_l : ℝ) : ℝ := 20 * log10 d_to_l + 7.7

/-- `ITUF699.__d_to_l_from_beamwidth`: `70 / beamwidth`. -/
def d_to_l_from_beamwidth (beamwidth : ℝ) : ℝ := 70 / beamwidth

/-- `ITUF699.__g_max_from_beamwidht`: `44.5 - 20*log10(beamwidth)`. -/
def g_max_from_beamwidht (beamwidth : ℝ) : ℝ := 44.5 - 20 * log10 beamwidth

/-- `ITUF699.__beamwidth_from_g_max`: `10 ** ((44.5 - g_max) / 20)`. -/
def beamwidth_from_g_max (g_max : ℝ) : ℝ := (10 : ℝ) ^ ((44.5 - g_max) / 20)

/-- `ITUF699._post_set_params`: fails when none of the three optional inputs
was given; otherwise records the frequency band and derives `d_to_l` (and,
when unset, `max_gain_dbi`) by the input-availability case table. -/
def f699post (v : F699Dict) : Except PyErr F699Dict :=
  match v.max_gain_dbi, v.diameter_m, v.beamwidth_deg with
  | none, none, none => .error .incompleteParameters
  | mg, dm, bw =>
    match v.oper_freq_mhz with
    | none => .error .keyError
    | some f =>
      let band : Option FreqBand :=
        if f ≤ 1000 then some .low
        else if f ≤ 70000 then some .mid
        else if f ≤ 86000 then some .high
        else none
      let v1 : F699Dict := { v with freq_band := band }
      match mg, dm, bw with
      | none, none, none => .error .incompleteParameters
      | some g, none, none =>
        .ok { v1 with d_to_l := some (d_to_l_from_g_max g) }
      | none, some d, none =>
        let dl := d / wavelength f
        .ok { v1 with d_to_l := some dl, max_gain_dbi := some (g_max_from_d_to_l dl) }
      | some _, some d, none =>
        .ok { v1 with d_to_l := some (d / wavelength f) }
      | none, none, some b =>
        .ok { v1 with d_to_l := some (d_to_l_from_beamwidth b),
                      max_gain_dbi := some (g_max_from_beamwidht b) }
      | some g, none, some _ =>
        .ok { v1 with d_to_l := some (d_to_l_from_g_max g) }
      | none, some d, some _ =>
        let dl := d / wavelength f
        .ok { v1 with d_to_l := some dl, max_gain_dbi := some (g_max_from_d_to_l dl) }
      | some _, some d, some _ =>
        .ok { v1 with d_to_l := some (d / wavelength f) }

/-- `BaseAntenna.set_params` as state transformer for an `ITUF699` instance:
on a validation failure the stored dict stays as it was; after validation the
dict is replaced (`self.params = validated_params`) and only then is the
post hook run, so a post-hook failure leaves the new validated dict stored. -/
def f699set_params (prev : F699Dict) (kw : F699Kwargs) : F699Dict × Option PyErr :=
  match f699validate kw with
  | .error e => (prev, some e)
  | .ok v =>
    match f699post v with
    | .error e => (v, some e)
    | .ok w => (w, none)

/-- `ITUF699.__normalize_off_axis_angle`: wrap into [0,360) then mirror into
[0,180]. -/
def normalize_off_axis_angle (angle : ℝ) : ℝ :=
  let a := pyMod (pyMod angle 360 + 360) 360
  if a > 180 then 360 - a else a

/-- `ITUF699.__gain_21` (D/λ > 100).  The guard models the explicit
`isinstance(phi_m, complex)` check: a negative discriminant raises the
dedicated `ValueError` (the spec's InvalidDerivedValue). -/
def f699gain_21 (p : F699Dict) (φ : ℝ) : Except PyErr (Option ℝ) := do
  let gmax ← keyGet p.max_gain_dbi
  if φ = 0 then .ok (some gmax) else do
  let d ← keyGet p.d_to_l
  let g1 := 2 + 15 * log10 d
  if gmax - g1 < 0 then .error .invalidDerivedValue else do
  let φm := 20 * 1 / d * (gmax - g1) ^ ((0.5 : ℝ))
  let φr := 15.85 * d ^ ((-0.6 : ℝ))
  let band ← keyGet p.freq_band
  if band = .mid then
    if 0 < φ ∧ φ < φm then .ok (some (gmax - 2.5 * (10 : ℝ) ^ (-3 : ℤ) * (d * φ) ^ 2))
    else if φm ≤ φ ∧ φ < φr then .ok (some g1)
    else if φr ≤ φ ∧ φ < 48 then .ok (some (32 - 25 * log10 φ))
    else if 48 ≤ φ ∧ φ ≤ 180 then .ok (some (-10))
    else .ok none
  else if band = .high then
    if 0 < φ ∧ φ < φm then .ok (some (gmax - 2.5 * (10 : ℝ) ^ (-3 : ℤ) * (d * φ) ^ 2))
    else if φm ≤ φ ∧ φ < φr then .ok (some g1)
    else if φr ≤ φ ∧ φ < 120 then .ok (some (32 - 25 * log10 φ))
    else if 120 ≤ φ ∧ φ ≤ 180 then .ok (some (-20))
    else .ok none
  else .ok none

/-- `ITUF699.__gain_22` (D/λ ≤ 100).  There is no complex-number check here:
with a negative discriminant `phi_m` is complex and the first chained
comparison `0 < phi < phi_m` raises a plain `TypeError`. -/
def f699gain_22 (p : F699Dict) (φ : ℝ) : Except PyErr (Option ℝ) := do
  let gmax ← keyGet p.max_gain_dbi
  if φ = 0 then .ok (some gmax) else do
  let d ← keyGet p.d_to_l
  let g1 := 2 + 15 * log10 d
  let band ← keyGet p.freq_band
  if band = .mid then
    if gmax - g1 < 0 then .error .typeError else
    let φm := 20 * 1 / d * (gmax - g1) ^ ((0.5 : ℝ))
    if 0 < φ ∧ φ < φm then .ok (some (gmax - 2.5 * (10 : ℝ) ^ (-3 : ℤ) * (d * φ) ^ 2))
    else if φm ≤ φ ∧ φ < 100 / d then .ok (some g1)
    else if 100 / d ≤ φ ∧ φ < 48 then .ok (some (52 - 10 * log10 d - 25 * log10 φ))
    else if 48 ≤ φ ∧ φ ≤ 180 then .ok (some (10 - 10 * log10 d))
    else .ok none
  else if band = .high then
    if gmax - g1 < 0 then .error .typeError else
    let φm := 20 * 1 / d * (gmax - g1) ^ ((0.5 : ℝ))
    if 0 < φ ∧ φ < φm then .ok (some (gmax - 2.5 * (10 : ℝ) ^ (-3 : ℤ) * (d * φ) ^ 2))
    else if φm ≤ φ ∧ φ < 100 / d then .ok (some g1)
    else if 100 / d ≤ φ ∧ φ < 120 then .ok (some (52 - 10 * log10 d - 25 * log10 φ))
    else if 120 ≤ φ ∧ φ ≤ 180 then .ok (some (-10 * log10 d))
    else .ok none
  else .ok none

/-- `ITUF699.__gain_23` (band 0.1-1 GHz, D/λ > 0.63).  Like `__gain_22` it
has no complex-number check; a negative discriminant surfaces as `TypeError`
at the first comparison against the complex `phi_m`. -/
def f699gain_23 (p : F699Dict) (φ : ℝ) : Except PyErr (Option ℝ) := do
  let gmax ← keyGet p.max_gain_dbi
  if φ = 0 then .ok (some gmax) else do
  let d ← keyGet p.d_to_l
  let g1 := 2 + 15 * log10 d
  if gmax - g1 < 0 then .error .typeError else
  let φm := 20 * 1 / d * (gmax - g1) ^ ((0.5 : ℝ))
  let φs := 144.5 * d ^ ((-0.2 : ℝ))
  if 0 < φ ∧ φ < φm then .ok (some (gmax - 2.5 * (10 : ℝ) ^ (-3 : ℤ) * (d * φ) ^ 2))
  else if φm ≤ φ ∧ φ < 100 / d then .ok (some g1)
  else if 100 / d ≤ φ ∧ φ < φs then .ok (some (52 - 10 * log10 d - 25 * log10 φ))
  else if φs ≤ φ ∧ φ ≤ 180 then .ok (some (-2 - 5 * log10 d))
  else .ok none

/-- `ITUF699.gain`: normalize the off-axis angle, then route by frequency
band and D/λ ratio (the 0.1-1 GHz band requires D/λ > 0.63). -/
def f699gain (p : F699Dict) (angle : ℝ) : Except PyErr (Option ℝ) := do
  let φ := normalize_off_axis_angle angle
  let band ← keyGet p.freq_band
  if band = .low then do
    let d ← keyGet p.d_to_l
    if d < 0.63 then .error .valueError
    else f699gain_23 p φ
  else do
    let d ← keyGet p.d_to_l
    if d > 100 then f699gain_21 p φ
    else f699gain_22 p φ

/-! ### ITUF1245 (src/antenna/antenna_models/ituf1245.py), Recommends 2 path -/

/-- The part of the `self.params` dict of an `ITUF1245` instance read by
`__gain_rec2`. -/
structure F1245Dict where
  max_gain_dbi : Option ℝ
  d_to_l : Option ℝ
  freq_band : Option FreqBand

/-- Python `math.sqrt`: raises `ValueError` (math domain error) on a negative
argument instead of producing a complex number. -/
def mathSqrt (x : ℝ) : Except PyErr ℝ :=
  if x < 0 then .error .valueError else .ok (Real.sqrt x)

/-- `ITUF1245.__gain_rec2`.  Unlike F.699 it computes `phi_m` with
`math.sqrt`, so a negative discriminant raises `ValueError` at the sqrt for
every branch (the bands here are `'1-70 GHz'` = `mid`, `'70-86 GHz'` = `high`). -/
def f1245gain_rec2 (p : F1245Dict) (φ : ℝ) : Except PyErr (Option ℝ) := do
  let gmax ← keyGet p.max_gain_dbi
  if φ = 0 then .ok (some gmax) else do
  let d ← keyGet p.d_to_l
  let band ← keyGet p.freq_band
  let g1 := 2 + 15 * log10 d
  let s ← mathSqrt (gmax - g1)
  let φm := 20 * (1 / d) * s
  let φr := 12.02 * d ^ ((-0.6 : ℝ))
  if d > 100 ∧ band = .mid then
    if 0 < φ ∧ φ < φm then .ok (some (gmax - 2.5 * (10 : ℝ) ^ (-3 : ℤ) * (d * φ) ^ 2))
    else if φm ≤ φ ∧ φ < max φm φr then .ok (some g1)
    else if max φm φr ≤ φ ∧ φ < 48 then .ok (some (29 - 25 * log10 φ))
    else if 48 ≤ φ ∧ φ ≤ 180 then .ok (some (-13))
    else .ok none
  else if d > 100 ∧ band = .high then
    if 0 < φ ∧ φ < φm then .ok (some (gmax - 2.5 * (10 : ℝ) ^ (-3 : ℤ) * (d * φ) ^ 2))
    else if φm ≤ φ ∧ φ < max φm φr then .ok (some g1)
    else if max φm φr ≤ φ ∧ φ < 120 then .ok (some (29 - 25 * log10 φ))
    else if 120 ≤ φ ∧ φ ≤ 180 then .ok (some (-23))
    else .ok none
  else if d ≤ 100 ∧ band = .mid then
    if 0 < φ ∧ φ < φm then .ok (some (gmax - 2.5 * (10 : ℝ) ^ (-3 : ℤ) * (d * φ) ^ 2))
    else if φm ≤ φ ∧ φ < 48 then .ok (some (39 - 5 * log10 d - 25 * log10 φ))
    else if 48 ≤ φ ∧ φ ≤ 180 then .ok (some (-3 - 5 * log10 d))
    else .ok none
  else if d ≤ 100 ∧ band = .high then
    if 0 < φ ∧ φ < φm then .ok (some (gmax - 2.5 * (10 : ℝ) ^ (-3 : ℤ) * (d * φ) ^ 2))
    else if φm ≤ φ ∧ φ < 120 then .ok (some (39 - 5 * log10 d - 25 * log10 φ))
    else if 120 ≤ φ ∧ φ ≤ 180 then .ok (some (-13 - 5 * log10 d))
    else .ok none
  else .ok none

/-! ### ITUF1336s (src/antenna_models/ituf1336s.py) -/

inductive PatternType where
  | average | peak
deriving DecidableEq

inductive PerformanceType where
  | typical | improved
deriving DecidableEq

/-- Tilt type; `none_` stands for the string `'none'`. -/
inductive TiltType where
  | none_ | mechanical | electrical
deriving DecidableEq

/-- Frequency range tag (`'0.4-6 GHz'` / `'6-70 GHz'`). -/
inductive F1336Range where
  | r04_6 | r6_70
deriving DecidableEq

/-- A fully resolved `ITUF1336s` parameter set (after `set_params` and
`_post_set_params` succeeded every key is present, so fields are total). -/
structure F1336sParams where
  oper_freq_mhz : ℝ
  max_gain_dbi : ℝ
  beamwidth_az_deg : ℝ
  pattern_type : PatternType
  performance_type : PerformanceType
  tilt_type : TiltType
  tilt_angle_deg : ℝ
  beamwidth_el_deg : ℝ
  k_p : ℝ
  k_a : ℝ
  k_h : ℝ
  k_v : ℝ
  freq_range : F1336Range

/-- The validated inputs of `ITUF1336s.set_params` (mandatory fields total,
conditional/optional ones `Option`). -/
structure F1336sIn where
  oper_freq_mhz : ℝ
  max_gain_dbi : ℝ
  beamwidth_az_deg : ℝ
  pattern_type : PatternType
  performance_type : PerformanceType
  tilt_type : TiltType
  tilt_angle_deg : Option ℝ
  beamwidth_el_deg : Option ℝ
  k_p : Option ℝ
  k_a : Option ℝ
  k_h : Option ℝ
  k_v : Option ℝ

/-- `ITUF1336s.__theta_3`: `(31000 * 10**(-0.1*g_0)) / phi_3`. -/
def theta_3 (g_0 phi_3 : ℝ) : ℝ := (31000 * (10 : ℝ) ^ (-0.1 * g_0)) / phi_3

/-- `ITUF1336s._post_set_params`: classify the frequency range and fill the
unset conditional/optional parameters with their derived or default values. -/
def f1336s_post (v : F1336sIn) : F1336sParams where
  oper_freq_mhz := v.oper_freq_mhz
  max_gain_dbi := v.max_gain_dbi
  beamwidth_az_deg := v.beamwidth_az_deg
  pattern_type := v.pattern_type
  performance_type := v.performance_type
  tilt_type := v.tilt_type
  tilt_angle_deg :=
    if v.tilt_angle_deg = none ∨ v.tilt_type = .none_ then 0 else v.tilt_angle_deg.getD 0
  beamwidth_el_deg := v.beamwidth_el_deg.getD (theta_3 v.max_gain_dbi v.beamwidth_az_deg)
  k_p := v.k_p.getD 0.7
  k_a := v.k_a.getD 0.7
  k_h := v.k_h.getD (if v.performance_type = .typical then 0.8 else 0.7)
  k_v := v.k_v.getD (if v.performance_type = .typical then 0.7 else 0.3)
  freq_range := if v.oper_freq_mhz ≤ 6000 then .r04_6 else .r6_70

/-- `ITUF1336s.__normalize_azimuth`: wrap into (-180, 180]. -/
def normalize_azimuth (angle : ℝ) : ℝ :=
  let a := pyMod angle 360
  if a > 180 then a - 360 else a

/-- `ITUF1336s.__normalize_elevation`: reflect at the poles, iterated until
the angle lies in [-90, 90] (the Python `while` loop). -/
def normalize_elevation (angle : ℝ) : ℝ :=
  if h1 : angle > 90 then normalize_elevation (180 - angle)
  else if h2 : angle < -90 then normalize_elevation (-180 - angle)
  else angle
termination_by (⌈|angle|⌉).toNat
decreasing_by
  · have h0 : (0 : ℝ) < angle := by linarith
    rw [abs_of_pos h0]
    rcases le_or_lt angle 180 with hc | hc
    · have habs : |180 - angle| ≤ 90 := by
        rw [abs_le]; constructor <;> linarith
      have hc1 : ⌈|180 - angle|⌉ ≤ 90 := Int.ceil_le.mpr (by exact_mod_cast habs)
      have hc2 : (90 : ℤ) < ⌈angle⌉ := by
        have : (90 : ℝ) < ⌈angle⌉ := lt_of_lt_of_le h1 (Int.le_ceil _)
        exact_mod_cast this
      omega
    · have habs : |180 - angle| = angle - 180 := by
        rw [abs_of_neg (by linarith)]; ring
      have hceil : ⌈angle - (180 : ℝ)⌉ = ⌈angle⌉ - 180 := by
        rw [show (180 : ℝ) = ((180 : ℤ) : ℝ) by norm_num, Int.ceil_sub_int]
      rw [habs, hceil]
      have hc2 : (180 : ℤ) < ⌈angle⌉ := by
        have : (180 : ℝ) < ⌈angle⌉ := lt_of_lt_of_le hc (Int.le_ceil _)
        exact_mod_cast this
      omega
  · have h0 : angle < 0 := by linarith
    rw [abs_of_neg h0]
    rcases le_or_lt (-180) angle with hc | hc
    · have habs : |-180 - angle| ≤ 90 := by
        rw [abs_le]; constructor <;> linarith
      have hc1 : ⌈|-180 - angle|⌉ ≤ 90 := Int.ceil_le.mpr (by exact_mod_cast habs)
      have hc2 : (90 : ℤ) < ⌈-angle⌉ := by
        have : (90 : ℝ) < ⌈-angle⌉ := lt_of_lt_of_le (by linarith) (Int.le_ceil _)
        exact_mod_cast this
      omega
    · have habs : |-180 - angle| = -angle - 180 := by
        rw [abs_of_pos (by linarith)]; ring
      have hceil : ⌈-angle - (180 : ℝ)⌉ = ⌈-angle⌉ - 180 := by
        rw [show (180 : ℝ) = ((180 : ℤ) : ℝ) by norm_num, Int.ceil_sub_int]
      rw [habs, hceil]
      have hc2 : (180 : ℤ) < ⌈-angle⌉ := by
        have : (180 : ℝ) < ⌈-angle⌉ := lt_of_lt_of_le (by linarith) (Int.le_ceil _)
        exact_mod_cast this
      omega

/-- Closed form of the pole-reflection loop (proof auxiliary, not from the
source): a 360-periodic triangle wave agreeing with `normalize_elevation`. -/
def elevRef (x : ℝ) : ℝ := 90 - |pyMod (x + 90) 360 - 180|

/-- Python `math.radians`. -/
def radians (x : ℝ) : ℝ := x * Real.pi / 180

/-- Python `math.degrees`. -/
def degrees (x : ℝ) : ℝ := x * 180 / Real.pi

/-- The clamping `max(-1.0, min(1.0, v))` used before inverse trig calls. -/
def clampUnit (x : ℝ) : ℝ := max (-1) (min 1 x)

/-- Python `math.atan2 y x`, the argument of the complex number `x + y*i`. -/
def pyAtan2 (y x : ℝ) : ℝ := Complex.arg ⟨x, y⟩

/-- `ITUF1336s.__normalize_tilted_angles`.  With tilt type `'none'` and zero
angle the pair passes through unchanged; otherwise the mechanical 3-D
rotation is computed (clamped arcsine for elevation, clamped arccosine for
azimuth), and for electrical tilt the elevation — but only the elevation —
is then recomputed by the proportional rescaling formula (1e). -/
def normalize_tilted_angles (p : F1336sParams) (phi_h theta_h : ℝ) : ℝ × ℝ :=
  if p.tilt_type = .none_ ∧ p.tilt_angle_deg = 0 then (phi_h, theta_h)
  else
    let β := p.tilt_angle_deg
    let sin_theta_h := Real.sin (radians theta_h)
    let cos_beta := Real.cos (radians β)
    let cos_theta_h := Real.cos (radians theta_h)
    let cos_phi_h := Real.cos (radians phi_h)
    let sin_beta := Real.sin (radians β)
    let asin_arg := clampUnit (sin_theta_h * cos_beta + cos_theta_h * cos_phi_h * sin_beta)
    let θmech := degrees (Real.arcsin asin_arg)
    let cos_theta := Real.cos (radians θmech)
    let acos_arg := clampUnit
      ((-sin_theta_h * sin_beta + cos_theta_h * cos_phi_h * cos_beta) / cos_theta)
    let φ := degrees (Real.arccos acos_arg)
    let θ :=
      if p.tilt_type = .electrical then
        (if theta_h + β ≥ 0 then 90 * (theta_h + β) / (90 + β)
         else 90 * (theta_h + β) / (90 - β))
      else θmech
    (φ, θ)

/-- `ITUF1336s.__g_180_peak`. -/
def g_180_peak (p : F1336sParams) : ℝ :=
  -12 + 10 * log10 (1 + 8 * p.k_p) - 15 * log10 (180 / p.beamwidth_el_deg)

/-- `ITUF1336s.__g_hr_peak`. -/
def g_hr_peak (p : F1336sParams) (x_h : ℝ) : ℝ :=
  let lambda_kh := 3 * (1 - (0.5 : ℝ) ^ (-p.k_h))
  let g180 := g_180_peak p
  let rv := if x_h ≤ 0.5 then -12 * x_h ^ 2 else -12 * x_h ^ ((2 - p.k_h : ℝ)) - lambda_kh
  if rv ≥ g180 then rv else g180

/-- `ITUF1336s.__c_peak`. -/
def c_peak (p : F1336sParams) : ℝ :=
  log10 ((180 / p.beamwidth_el_deg) ^ ((1.5 : ℝ)) * ((4 : ℝ) ^ ((-1.5 : ℝ)) + p.k_v)
      / (1 + 8 * p.k_p)) / log10 (22.5 / p.beamwidth_el_deg)

/-- `ITUF1336s.__g_vr_peak`. -/
def g_vr_peak (p : F1336sParams) (x_v : ℝ) : ℝ :=
  let x_k := Real.sqrt (1 - 0.36 * p.k_v)
  let g180 := g_180_peak p
  let c := c_peak p
  let lambda_kv := 12 - c * log10 4 - 10 * log10 ((4 : ℝ) ^ ((-1.5 : ℝ)) + p.k_v)
  if x_v < x_k then -12 * x_v ^ 2
  else if x_v < 4 then -12 + 10 * log10 (x_v ^ ((-1.5 : ℝ)) + p.k_v)
  else if x_v < 90 / p.beamwidth_el_deg then -lambda_kv - c * log10 x_v
  else g180

/-- `ITUF1336s.__gain_peak_04_6ghz`. -/
def gain_peak_04_6ghz (p : F1336sParams) (φ θ : ℝ) : ℝ :=
  let x_h := |φ| / p.beamwidth_az_deg
  let x_v := |θ| / p.beamwidth_el_deg
  let r := (g_hr_peak p x_h - g_hr_peak p (180 / p.beamwidth_az_deg))
      / (g_hr_peak p 0 - g_hr_peak p (180 / p.beamwidth_az_deg))
  p.max_gain_dbi + g_hr_peak p x_h + r * g_vr_peak p x_v

/-- `ITUF1336s.__g_180_average`. -/
def g_180_average (p : F1336sParams) : ℝ :=
  -15 + 10 * log10 (1 + 8 * p.k_a) - 15 * log10 (180 / p.beamwidth_el_deg)

/-- `ITUF1336s.__g_hr_average`. -/
def g_hr_average (p : F1336sParams) (x_h : ℝ) : ℝ :=
  let lambda_kh := 3 * (1 - (0.5 : ℝ) ^ (-p.k_h))
  let g180 := g_180_average p
  let rv := if x_h ≤ 0.5 then -12 * x_h ^ 2 else -12 * x_h ^ ((2 - p.k_h : ℝ)) - lambda_kh
  if rv ≥ g180 then rv else g180

/-- `ITUF1336s.__c_average`. -/
def c_average (p : F1336sParams) : ℝ :=
  log10 ((180 / p.beamwidth_el_deg) ^ ((1.5 : ℝ)) * ((4 : ℝ) ^ ((-1.5 : ℝ)) + p.k_v)
      / (1 + 8 * p.k_a)) / log10 (22.5 / p.beamwidth_el_deg)

/-- `ITUF1336s.__g_vr_average`. -/
def g_vr_average (p : F1336sParams) (x_v : ℝ) : ℝ :=
  let x_k := Real.sqrt (1.33 - 0.33 * p.k_v)
  let g180 := g_180_average p
  let c := c_average p
  let lambda_kv := 12 - c * log10 4 - 10 * log10 ((4 : ℝ) ^ ((-1.5 : ℝ)) + p.k_v)
  if x_v < x_k then -12 * x_v ^ 2
  else if x_v < 4 then -15 + 10 * log10 (x_v ^ ((-1.5 : ℝ)) + p.k_v)
  else if x_v < 90 / p.beamwidth_el_deg then -lambda_kv - 3 - c * log10 x_v
  else g180

/-- `ITUF1336s.__gain_average_04_6ghz`. -/
def gain_average_04_6ghz (p : F1336sParams) (φ θ : ℝ) : ℝ :=
  let x_h := |φ| / p.beamwidth_az_deg
  let x_v := |θ| / p.beamwidth_el_deg
  let r := (g_hr_average p x_h - g_hr_average p (180 / p.beamwidth_az_deg))
      / (g_hr_average p 0 - g_hr_average p (180 / p.beamwidth_az_deg))
  p.max_gain_dbi + g_hr_average p x_h + r * g_vr_average p x_v

/-- `ITUF1336s.__psi`: great-circle off-axis angle from azimuth/elevation. -/
def psi (φ θ : ℝ) : ℝ :=
  degrees (Real.arccos (clampUnit (Real.cos (radians φ) * Real.cos (radians θ))))

/-- `ITUF1336s.__alpha` (using `atan2` as the source does). -/
def alpha (φ θ : ℝ) : ℝ :=
  degrees (pyAtan2 (Real.tan (radians θ)) (Real.sin (radians φ)))

/-- `ITUF1336s.__phi_3m`.  Beyond `|φ| > 180` the Python function falls off
and returns `None`; that is unreachable from `gain` (azimuth is normalized
into (-180, 180]), the embedding returns 0 there. -/
def phi_3m (p : F1336sParams) (φ θ : ℝ) : ℝ :=
  let phi_th := if p.pattern_type = .peak then p.beamwidth_az_deg
                else 1.152 * p.beamwidth_az_deg
  let phi_abs := |φ|
  if 0 ≤ phi_abs ∧ phi_abs ≤ phi_th then p.beamwidth_az_deg
  else if phi_th < phi_abs ∧ phi_abs ≤ 180 then
    let x := radians ((phi_abs - phi_th) / (180 - phi_th) * 90)
    1 / Real.sqrt ((Real.cos x / p.beamwidth_az_deg) ^ 2
        + (Real.sin x / p.beamwidth_el_deg) ^ 2)
  else 0

/-- `ITUF1336s.__psi_a`.  The Python function returns `None` outside
`0 ≤ psi ≤ 180`, which cannot happen (`psi` is a degree arccosine); the
embedding returns 0 there. -/
def psi_a (p : F1336sParams) (φ θ : ℝ) : ℝ :=
  let ψ := psi φ θ
  if 0 ≤ ψ ∧ ψ ≤ 90 then
    let a := Real.cos (radians (alpha φ θ)) / p.beamwidth_az_deg
    let b := Real.sin (radians (alpha φ θ)) / p.beamwidth_el_deg
    1 / Real.sqrt (a ^ 2 + b ^ 2)
  else if 90 < ψ ∧ ψ ≤ 180 then
    let a := Real.cos (radians θ) / phi_3m p φ θ
    let b := Real.sin (radians θ) / p.beamwidth_el_deg
    1 / Real.sqrt (a ^ 2 + b ^ 2)
  else 0

/-- `ITUF1336s.__gain_peak_6_70ghz` (Python returns `None` for `x < 0`,
unreachable since `psi ≥ 0` and `psi_a > 0`; the embedding returns 0 there). -/
def gain_peak_6_70ghz (p : F1336sParams) (φ θ : ℝ) : ℝ :=
  let x := psi φ θ / psi_a p φ θ
  if 0 ≤ x ∧ x < 1 then p.max_gain_dbi - 12 * x ^ 2
  else if 1 ≤ x then p.max_gain_dbi - 12 - 15 * log10 x
  else 0

/-- `ITUF1336s.__gain_average_6_70ghz` (same unreachable-`None` note). -/
def gain_average_6_70ghz (p : F1336sParams) (φ θ : ℝ) : ℝ :=
  let x := psi φ θ / psi_a p φ θ
  if 0 ≤ x ∧ x < 1.152 then p.max_gain_dbi - 12 * x ^ 2
  else if 1.152 ≤ x then p.max_gain_dbi - 15 - 15 * log10 x
  else 0

/-- `ITUF1336s.gain`: normalize both angles, apply the tilt transform, then
dispatch on frequency range and side-lobe pattern type. -/
def f1336sgain (p : F1336sParams) (azimuth elevation : ℝ) : ℝ :=
  let phi_h := normalize_azimuth azimuth
  let theta_h := normalize_elevation elevation
  let a := normalize_tilted_angles p phi_h theta_h
  match p.freq_range, p.pattern_type with
  | .r04_6, .average => gain_average_04_6ghz p a.1 a.2
  | .r04_6, .peak => gain_peak_04_6ghz p a.1 a.2
  | .r6_70, .average => gain_average_6_70ghz p a.1 a.2
  | .r6_70, .peak => gain_peak_6_70ghz p a.1 a.2

/-! ### ITUS465 (src/antenna_models/itus465.py) -/

/-- The `self.params` dict of an `ITUS465` instance (all three declared
inputs are optional). -/
structure S465Dict where
  oper_freq_mhz : Option ℝ
  diameter_m : Option ℝ
  d_to_l : Option ℝ

/-- Validation loop of `set_params` for `ITUS465.PARAMS`. -/
def s465validate (kw : S465Dict) : Except PyErr S465Dict := do
  let f ← checkOpt 2000 31000 kw.oper_freq_mhz
  let dm ← checkOpt 0.001 99.999 kw.diameter_m
  let dl ← checkOpt 0.001 10000 kw.d_to_l
  .ok ⟨f, dm, dl⟩

/-- `ITUS465._post_set_params`: the case table over which optional inputs
were supplied; `d_to_l` wins when present, else it is derived from diameter
and frequency, else the call fails. -/
def s465post (v : S465Dict) : Except PyErr S465Dict :=
  match v.oper_freq_mhz, v.diameter_m, v.d_to_l with
  | none, some _, none => .error .incompleteParameters
  | some _, none, none => .error .incompleteParameters
  | some f, some d, none => .ok { v with d_to_l := some (d / wavelength f) }
  | _, _, _ => .ok v

/-- `set_params` state transformer for an `ITUS465` instance. -/
def s465set_params (prev : S465Dict) (kw : S465Dict) : S465Dict × Option PyErr :=
  match s465validate kw with
  | .error e => (prev, some e)
  | .ok v =>
    match s465post v with
    | .error e => (v, some e)
    | .ok w => (w, none)

/-- `ITUS465.__phi_min`. -/
def phi_min_465 (d_to_l : ℝ) : ℝ :=
  if d_to_l ≥ 50 then max 1 (100 * (1 / d_to_l))
  else if 33.3 ≤ d_to_l then max 2 (114 * d_to_l ^ ((-1.09 : ℝ)))
  else 2.5

/-- `ITUS465.gain`: below `phi_min` the gain is the undefined marker
(Python `None`). -/
def s465gain (p : S465Dict) (angle : ℝ) : Except PyErr (Option ℝ) := do
  let φ := normalize_off_axis_angle angle
  let d ← keyGet p.d_to_l
  let φmin := phi_min_465 d
  if φ < φmin then .ok none
  else if φmin ≤ φ ∧ φ < 48 then .ok (some (32 - 25 * log10 φ))
  else .ok (some (-10))

/-! ### ITUS580 (src/antenna_models/itus580.py) -/

/-- An `ITUS580` instance: its own params dict plus the independently
constructed `ITUS465` delegate instance it owns. -/
structure S580State where
  own : S465Dict
  delegate : S465Dict

/-- Validation loop of `set_params` for `ITUS580.PARAMS` (note the narrower
ranges: diameter up to 15 m, `d_to_l` from 50). -/
def s580validate (kw : S465Dict) : Except PyErr S465Dict := do
  let f ← checkOpt 1000 100000 kw.oper_freq_mhz
  let dm ← checkOpt 0.001 14.999 kw.diameter_m
  let dl ← checkOpt 50 10000 kw.d_to_l
  .ok ⟨f, dm, dl⟩

/-- `ITUS580._post_set_params`: same case table as S.465 followed by the
explicit `d_to_l ≥ 50` check (reading the key raises `KeyError` when every
input was omitted, since all three are optional). -/
def s580post (v : S465Dict) : Except PyErr S465Dict :=
  match v.oper_freq_mhz, v.diameter_m, v.d_to_l with
  | none, some _, none => .error .incompleteParameters
  | some _, none, none => .error .incompleteParameters
  | some f, some d, none =>
    let dl := d / wavelength f
    if dl < 50 then .error .valueError else .ok { v with d_to_l := some dl }
  | _, _, some dl =>
    if dl < 50 then .error .valueError else .ok v
  | none, none, none => .error .keyError

/-- `set_params` state transformer for the `ITUS580` instance (the delegate
is not touched during configuration). -/
def s580set_params (st : S580State) (kw : S465Dict) : S580State × Option PyErr :=
  match s580validate kw with
  | .error e => (st, some e)
  | .ok v =>
    match s580post v with
    | .error e => ({ st with own := v }, some e)
    | .ok w => ({ st with own := w }, none)

/-- `ITUS580.__phi_min`. -/
def phi_min_580 (d_to_l : ℝ) : ℝ := max 1 (100 * 1 / d_to_l)

/-- `ITUS580.gain` as a state transformer: every call reconfigures the owned
S.465 delegate with the owner's `d_to_l` (a full `set_params` on the
delegate), then dispatches: below `phi_min` the undefined marker, up to 20°
its own `29 - 25*log10(phi)` law, in the overlap band up to 26.3° the lower
of its own -3.5 dB level ([1] Note 5) and the delegate's gain, and beyond
that the delegate's gain alone.  `min(-3.5, None)` would raise `TypeError`. -/
def s580gain (st : S580State) (angle : ℝ) : S580State × Except PyErr (Option ℝ) :=
  match st.own.d_to_l with
  | none => (st, .error .keyError)
  | some d =>
    let φ := normalize_off_axis_angle angle
    let m := phi_min_580 d
    match s465set_params st.delegate ⟨none, none, some d⟩ with
    | (del1, some e) => ({ st with delegate := del1 }, .error e)
    | (del1, none) =>
      let st1 : S580State := { st with delegate := del1 }
      if φ < m then (st1, .ok none)
      else if φ ≤ 20 then (st1, .ok (some (29 - 25 * log10 φ)))
      else if φ ≤ 26.3 then
        match s465gain del1 φ with
        | .error e => (st1, .error e)
        | .ok none => (st1, .error .typeError)
        | .ok (some g) => (st1, .ok (some (min (-3.5) g)))
      else (st1, s465gain del1 φ)

/-! ### Pattern builders (`_update_specs`) -/

/-- Monadic map over a list, modelling a Python `for` loop that appends one
computed entry per element and aborts on the first exception. -/
def mapME {α β : Type} (f : α → Except PyErr β) : List α → Except PyErr (List β)
  | [] => .ok []
  | a :: t => do
    let b ← f a
    let r ← mapME f t
    .ok (b :: r)

/-- The angle/loss part of a `specs` record whose loss entries are always
numeric. -/
structure PatternSpecs where
  gain_field : ℝ
  angles : List ℕ
  h_loss : List ℝ
  v_loss : List ℝ

/-- The angle/loss part of a `specs` record whose loss entries may carry the
undefined marker `'n/a'` (modelled as `none`). -/
structure PatternSpecsOpt where
  gain_field : ℝ
  angles : List ℕ
  h_loss : List (Option ℝ)
  v_loss : List (Option ℝ)

/-- One loop iteration of `ITUF699._update_specs`:
`round(g_max - gain(angle), 2)`; an undefined gain would make
`g_max - None` raise `TypeError`. -/
def f699loss_entry (p : F699Dict) (m : ℝ) (a : ℕ) : Except PyErr ℝ := do
  match ← f699gain p (a : ℝ) with
  | some g => .ok (round2 (m - g))
  | none => .error .typeError

/-- `ITUF699._update_specs`: sweep the gain over the integer angles 0..360,
store `round(g_max - gain, 2)` per angle, and reuse the list for the
vertical plane. -/
def f699_update_specs (p : F699Dict) : Except PyErr PatternSpecs := do
  let _dl ← keyGet p.d_to_l
  let m ← keyGet p.max_gain_dbi
  let losses ← mapME (f699loss_entry p m) (List.range 361)
  .ok ⟨round2 m, List.range 361, losses, losses⟩

/-- One loop iteration of `ITUS465._update_specs`: the rounded loss where the
gain is defined, the `'n/a'` marker (here `none`) where it is not. -/
def s465loss_entry (p : S465Dict) (gmax : ℝ) (a : ℕ) : Except PyErr (Option ℝ) := do
  match ← s465gain p (a : ℝ) with
  | some g => .ok (some (round2 (gmax - g)))
  | none => .ok none

/-- `ITUS465._update_specs`: the summary gain is the rounded gain at
`phi_min`; per angle the loss is `round(g_max - gain, 2)` or the `'n/a'`
marker where the gain is undefined. -/
def s465_update_specs (p : S465Dict) : Except PyErr PatternSpecsOpt := do
  let d ← keyGet p.d_to_l
  let g0 ← s465gain p (phi_min_465 d)
  let gmax ← match g0 with
    | some v => Except.ok (round2 v)
    | none => Except.error PyErr.typeError
  let losses ← mapME (s465loss_entry p gmax) (List.range 361)
  .ok ⟨gmax, List.range 361, losses, losses⟩

/-- `ITUF1336s._update_specs`: horizontal sweep at elevation 0, vertical
sweep with the azimuth pointing backwards for 90 < angle < 270. -/
def f1336s_update_specs (p : F1336sParams) : PatternSpecs where
  gain_field := p.max_gain_dbi
  angles := List.range 361
  h_loss := (List.range 361).map fun a : ℕ =>
    round2 (p.max_gain_dbi - f1336sgain p (a : ℝ) 0)
  v_loss := (List.range 361).map fun a : ℕ =>
    round2 (p.max_gain_dbi -
      f1336sgain p (if 90 < a ∧ a < 270 then (180 : ℝ) else 0) (a : ℝ))

/-! ### Concrete configuration scenarios -/

/-- Scenario A configuration call: `oper_freq_mhz=23000, diameter_m=6`. -/
def scenarioA : F699Dict × Option PyErr :=
  f699set_params F699Dict.empty ⟨some 23000, some 6, none, none⟩

/-- The derived diameter-to-wavelength ratio of Scenario A. -/
def scenarioA_dl : ℝ := 6 / wavelength 23000

/-- A degenerate F.699 configuration: supplied peak gain 0 dBi together with
a diameter giving D/λ = 10, so that `g_1 = 17 > g_max` and the square-root
discriminant `g_max - g_1` is negative. -/
def scenario_degenerate : F699Dict × Option PyErr :=
  f699set_params F699Dict.empty ⟨some 2000, some 1.49896229, some 0, none⟩

/-- Scenario B inputs: sectoral model, azimuth beamwidth 65°, peak gain
17 dBi, peak side lobes, typical performance, tilt disabled. -/
def scenarioB_In : F1336sIn :=
  ⟨2000, 17, 65, .peak, .typical, .none_, none, none, none, none, none, none⟩

/-- The resolved Scenario B parameter set. -/
def scenarioB : F1336sParams := f1336s_post scenarioB_In

/-- A Scenario-B-like sectoral configuration with 45° electrical tilt and an
explicit 10° elevation beamwidth. -/
def tiltedParams : F1336sParams :=
  ⟨2000, 17, 65, .peak, .typical, .electrical, 45, 10, 0.7, 0.7, 0.8, 0.7, .r04_6⟩

/-- An S.580 instance configured with `d_to_l = 50` whose owned S.465
delegate is still freshly constructed (empty params). -/
def s580_example : S580State := ⟨⟨none, none, some 50⟩, ⟨none, none, none⟩⟩

/-- An S.465 instance configured directly with `d_to_l = 100`. -/
def s465_100 : S465Dict := ⟨none, none, some 100⟩

/-- The F.699 configuration of the C4 counterexample: frequency 2000 MHz and
diameter one wavelength, so D/λ = 1 exactly and the derived peak gain is
7.7 dBi while the far side-lobe floor `10 - 10*log10(1) = 10` exceeds it. -/
def c4_config : F699Dict × Option PyErr :=
  f699set_params F699Dict.empty ⟨some 2000, some 0.149896229, none, none⟩

/-- The stored dict of the C4 counterexample configuration. -/
def c4_dict : F699Dict :=
  ⟨some 2000, some 0.149896229, some 7.7, none, some .mid, some 1⟩

/-! ## Shared evaluation lemmas -/

lemma pyMod360_eq (x : ℝ) : pyMod x 360 = 360 * Int.fract (x / 360) := by
  unfold pyMod Int.fract
  ring

lemma pyMod360_nonneg (x : ℝ) : 0 ≤ pyMod x 360 := by
  rw [pyMod360_eq]
  have := Int.fract_nonneg (x / 360)
  linarith

lemma pyMod360_lt (x : ℝ) : pyMod x 360 < 360 := by
  rw [pyMod360_eq]
  have := Int.fract_lt_one (x / 360)
  linarith

lemma pyMod360_intmul (x : ℝ) (k : ℤ) : pyMod (x + 360 * k) 360 = pyMod x 360 := by
  rw [pyMod360_eq, pyMod360_eq, show (x + 360 * (k : ℝ)) / 360 = x / 360 + k by ring,
    Int.fract_add_int]

lemma pyMod360_eq_self {x : ℝ} (h0 : 0 ≤ x) (h1 : x < 360) : pyMod x 360 = x := by
  rw [pyMod360_eq, Int.fract_eq_self.mpr ⟨by positivity, by linarith⟩]
  field_simp

lemma normalize_off_axis_eq (x : ℝ) :
    normalize_off_axis_angle x =
      (if pyMod x 360 > 180 then 360 - pyMod x 360 else pyMod x 360) := by
  unfold normalize_off_axis_angle
  rw [show pyMod x 360 + 360 = pyMod x 360 + 360 * ((1 : ℤ) : ℝ) by norm_num,
    pyMod360_intmul, pyMod360_eq_self (pyMod360_nonneg x) (pyMod360_lt x)]

lemma normalize_off_axis_mem (x : ℝ) :
    0 ≤ normalize_off_axis_angle x ∧ normalize_off_axis_angle x ≤ 180 := by
  rw [normalize_off_axis_eq]
  have h1 := pyMod360_nonneg x
  have h2 := pyMod360_lt x
  split_ifs with h <;> constructor <;> linarith

lemma normalize_off_axis_id {φ : ℝ} (h0 : 0 ≤ φ) (h1 : φ ≤ 180) :
    normalize_off_axis_angle φ = φ := by
  rw [normalize_off_axis_eq, pyMod360_eq_self h0 (by linarith)]
  rw [if_neg (by linarith)]

/-- Normalization fixes integer-free small angles; in particular 0. -/
lemma normalize_zero : normalize_off_axis_angle 0 = 0 :=
  normalize_off_axis_id le_rfl (by norm_num)

lemma normalize_azimuth_id {φ : ℝ} (h0 : 0 ≤ φ) (h1 : φ ≤ 180) :
    normalize_azimuth φ = φ := by
  unfold normalize_azimuth
  rw [pyMod360_eq_self h0 (by linarith), if_neg (by linarith)]

lemma normalize_elevation_id {θ : ℝ} (h0 : -90 ≤ θ) (h1 : θ ≤ 90) :
    normalize_elevation θ = θ := by
  rw [normalize_elevation]
  rw [dif_neg (by linarith), dif_neg (by linarith)]

/-- Explicit value of the Scenario A configuration call. -/
lemma scenarioA_eq :
    scenarioA =
      (⟨some 23000, some 6, some (g_max_from_d_to_l scenarioA_dl), none,
        some .mid, some scenarioA_dl⟩, none) := by
  have hval : f699validate ⟨some 23000, some 6, none, none⟩ =
      .ok ⟨some 23000, some 6, none, none, none, none⟩ := by
    simp [f699validate, checkOpt, bind, Except.bind]
    norm_num
  have hpost : f699post ⟨some 23000, some 6, none, none, none, none⟩ =
      .ok ⟨some 23000, some 6, some (g_max_from_d_to_l scenarioA_dl), none,
            some .mid, some scenarioA_dl⟩ := by
    simp only [f699post, scenarioA_dl]
    norm_num
  simp [scenarioA, f699set_params, hval, hpost]

/-- Explicit value of the degenerate configuration call: accepted, with
`d_to_l = 10` and the supplied `max_gain_dbi = 0` kept. -/
lemma scenario_degenerate_eq :
    scenario_degenerate =
      (⟨some 2000, some 1.49896229, some 0, none, some .mid, some 10⟩, none) := by
  have hval : f699validate ⟨some 2000, some 1.49896229, some 0, none⟩ =
      .ok ⟨some 2000, some 1.49896229, some 0, none, none, none⟩ := by
    simp [f699validate, checkOpt, bind, Except.bind]
    norm_num
  have hdl : (1.49896229 : ℝ) / wavelength 2000 = 10 := by
    simp [wavelength]; norm_num
  have hpost : f699post ⟨some 2000, some 1.49896229, some 0, none, none, none⟩ =
      .ok ⟨some 2000, some 1.49896229, some 0, none, some .mid, some 10⟩ := by
    simp only [f699post]
    rw [hdl]
    norm_num
  simp [scenario_degenerate, f699set_params, hval, hpost]

/-- C3: configuring the F.699 model with `oper_freq_mhz = 23000` and
`diameter_m = 6` (no explicit peak gain) succeeds, derives
`d_to_l = diameter / wavelength` with `wavelength = 299.792458 / f`, derives
peak gain `20*log10(d_to_l) + 7.7`, and a gain query at off-axis angle 0
returns exactly that derived peak gain. -/
theorem C3_derived_peak_gain :
    scenarioA.2 = none ∧
    scenarioA.1.d_to_l = some scenarioA_dl ∧
    scenarioA.1.max_gain_dbi = some (20 * log10 scenarioA_dl + 7.7) ∧
    f699gain scenarioA.1 0 = .ok (some (20 * log10 scenarioA_dl + 7.7)) := by
  have hset := scenarioA_eq
  refine ⟨by rw [hset], by rw [hset], by rw [hset, g_max_from_d_to_l], ?_⟩
  rw [hset]
  have hd : (100 : ℝ) < scenarioA_dl := by
    simp only [scenarioA_dl, wavelength]
    norm_num
  simp only [f699gain, keyGet, bind, Except.bind, normalize_zero]
  rw [if_neg (by simp : ¬ (FreqBand.mid = FreqBand.low)), if_pos hd]
  simp [f699gain_21, keyGet, bind, Except.bind, g_max_from_d_to_l]

/-- C1 (amended): `set_params` is atomic with respect to failures raised in
the validation loop — the previously stored parameter set survives unchanged
(in particular Scenario C, an out-of-range frequency) — but the validated
parameter set is committed *before* the post-validation derivation hook runs,
so a hook failure (e.g. incomplete parameters) leaves the new
validated-but-underived set stored instead of the previous configuration. -/
theorem C1_set_params_atomicity_amended :
    (∀ (prev : F699Dict) (kw : F699Kwargs) (e : PyErr),
        f699validate kw = .error e → f699set_params prev kw = (prev, some e)) ∧
    (∀ (prev : F699Dict) (kw : F699Kwargs) (v : F699Dict) (e : PyErr),
        f699validate kw = .ok v → f699post v = .error e →
        f699set_params prev kw = (v, some e)) ∧
    (∀ prev : F699Dict,
        f699set_params prev ⟨some 50, none, none, none⟩ = (prev, some .outOfRange)) := by
  refine ⟨?_, ?_, ?_⟩
  · intro prev kw e h
    simp [f699set_params, h]
  · intro prev kw v e h1 h2
    simp [f699set_params, h1, h2]
  · intro prev
    have hval : f699validate ⟨some 50, none, none, none⟩ = .error .outOfRange := by
      simp [f699validate, checkOpt, bind, Except.bind]
      norm_num
    simp [f699set_params, hval]

/-- C1 counterexample: an instance holding the previously validated Scenario A
configuration, reconfigured with only a valid frequency, fails in the
derivation hook (incomplete parameters) — yet its stored parameter set is no
longer the previous one: the new validated set was committed. -/
theorem C1_counterexample :
    (f699set_params scenarioA.1 ⟨some 1000, none, none, none⟩).2 =
      some .incompleteParameters ∧
    (f699set_params scenarioA.1 ⟨some 1000, none, none, none⟩).1 ≠ scenarioA.1 := by
  have hval : f699validate ⟨some 1000, none, none, none⟩ =
      .ok ⟨some 1000, none, none, none, none, none⟩ := by
    simp [f699validate, checkOpt, bind, Except.bind]
    norm_num
  have hpost : f699post ⟨some 1000, none, none, none, none, none⟩ =
      .error .incompleteParameters := by
    simp [f699post]
  rw [scenarioA_eq]
  constructor
  · simp [f699set_params, hval, hpost]
  · simp only [f699set_params, hval, hpost]
    intro h
    have := congrArg F699Dict.max_gain_dbi h
    simp at this

/-- C6 (amended): with a negative square-root discriminant
`g_max - g_1 < 0` and a nonzero off-axis angle, every affected piecewise
evaluation stops with a synchronous error, but only `__gain_21`
(F.699, D/λ > 100) raises the explicit InvalidDerivedValue-style check;
F.1245 `__gain_rec2` fails with the math-domain `ValueError` from
`math.sqrt`; F.699 `__gain_22` and `__gain_23` build a complex `phi_m` and
fail with a plain `TypeError` at the first comparison.  At angle 0 every
path returns the stored peak before the discriminant is computed. -/
theorem C6_discriminant_errors_amended :
    (∀ (p : F699Dict) (φ m d : ℝ), p.max_gain_dbi = some m → p.d_to_l = some d →
        m - (2 + 15 * log10 d) < 0 → φ ≠ 0 →
        f699gain_21 p φ = .error .invalidDerivedValue) ∧
    (∀ (p : F699Dict) (φ m d : ℝ), p.max_gain_dbi = some m → p.d_to_l = some d →
        (p.freq_band = some .mid ∨ p.freq_band = some .high) →
        m - (2 + 15 * log10 d) < 0 → φ ≠ 0 →
        f699gain_22 p φ = .error .typeError) ∧
    (∀ (p : F699Dict) (φ m d : ℝ), p.max_gain_dbi = some m → p.d_to_l = some d →
        m - (2 + 15 * log10 d) < 0 → φ ≠ 0 →
        f699gain_23 p φ = .error .typeError) ∧
    (∀ (p : F1245Dict) (φ m d : ℝ) (b : FreqBand),
        p.max_gain_dbi = some m → p.d_to_l = some d → p.freq_band = some b →
        m - (2 + 15 * log10 d) < 0 → φ ≠ 0 →
        f1245gain_rec2 p φ = .error .valueError) ∧
    (∀ (p : F699Dict) (m : ℝ), p.max_gain_dbi = some m →
        f699gain_21 p 0 = .ok (some m)) := by
  refine ⟨?_, ?_, ?_, ?_, ?_⟩
  · intro p φ m d hm hd hneg hφ
    simp [f699gain_21, keyGet, bind, Except.bind, hm, hd, hφ, hneg]
  · intro p φ m d hm hd hband hneg hφ
    rcases hband with hb | hb <;>
      simp [f699gain_22, keyGet, bind, Except.bind, hm, hd, hb, hφ, hneg]
  · intro p φ m d hm hd hneg hφ
    simp [f699gain_23, keyGet, bind, Except.bind, hm, hd, hφ, hneg]
  · intro p φ m d b hm hd hb hneg hφ
    simp [f1245gain_rec2, keyGet, bind, Except.bind, mathSqrt, hm, hd, hb, hφ, hneg]
  · intro p m hm
    simp [f699gain_21, keyGet, bind, Except.bind, hm]

/-- C6 counterexample: a degenerate configuration accepted by `set_params`
(D/λ = 10, supplied peak gain 0, so `g_max - g_1 = -17 < 0`) makes the gain
query fail with a plain `TypeError` (comparison against a complex `phi_m`),
not with the InvalidDerivedValue-style error the claim demands for all
branches. -/
theorem C6_counterexample :
    scenario_degenerate.2 = none ∧
    f699gain scenario_degenerate.1 10 = .error .typeError ∧
    PyErr.typeError ≠ PyErr.invalidDerivedValue := by
  have hset := scenario_degenerate_eq
  refine ⟨by rw [hset], ?_, by simp⟩
  rw [hset]
  have hnorm : normalize_off_axis_angle 10 = 10 := by
    simp only [normalize_off_axis_angle, pyMod]
    norm_num
  simp only [f699gain, keyGet, bind, Except.bind, hnorm]
  rw [if_neg (by simp : ¬ (FreqBand.mid = FreqBand.low)),
      if_neg (by norm_num : ¬ ((10 : ℝ) > 100))]
  have hlog : log10 (10 : ℝ) = 1 := by
    simp [log10]
  simp only [f699gain_22, keyGet, bind, Except.bind, hlog]
  norm_num

/-! ## Boresight lemmas for C2 -/

lemma g_hr_peak_zero {p : F1336sParams} (h : g_180_peak p < 0) : g_hr_peak p 0 = 0 := by
  unfold g_hr_peak
  norm_num
  intro h2
  linarith

lemma g_vr_peak_zero {p : F1336sParams} (h : 0.36 * p.k_v < 1) : g_vr_peak p 0 = 0 := by
  unfold g_vr_peak
  rw [if_pos]
  · norm_num
  · exact Real.sqrt_pos.mpr (by linarith)

lemma g_hr_average_zero {p : F1336sParams} (h : g_180_average p < 0) :
    g_hr_average p 0 = 0 := by
  unfold g_hr_average
  norm_num
  intro h2
  linarith

lemma g_vr_average_zero {p : F1336sParams} (h : 0.33 * p.k_v < 1.33) :
    g_vr_average p 0 = 0 := by
  unfold g_vr_average
  rw [if_pos]
  · norm_num
  · exact Real.sqrt_pos.mpr (by linarith)

lemma psi_zero : psi 0 0 = 0 := by
  unfold psi clampUnit radians degrees
  norm_num [Real.arccos_one]

/-- C2: for every configured model with a defined boresight peak the gain at
zero off-axis angle (azimuth 0 and elevation 0, tilt disabled, for the
two-plane model) is exactly the stored peak gain: the F.699 router at angle
0 short-circuits to `max_gain_dbi` in every band, and each F.1336 sectoral
dispatch branch returns `max_gain_dbi` at (0, 0) whenever the relative
side-lobe floor lies below the boresight level (`g_180 < 0`; the 6-70 GHz
formulas need no such condition). -/
theorem C2_boresight_peak :
    (∀ (p : F699Dict) (m d : ℝ) (b : FreqBand),
        p.max_gain_dbi = some m → p.d_to_l = some d → p.freq_band = some b →
        (b = .low → ¬ d < 0.63) →
        f699gain p 0 = .ok (some m)) ∧
    (∀ p : F1336sParams, p.freq_range = .r04_6 → p.pattern_type = .peak →
        p.tilt_type = .none_ → p.tilt_angle_deg = 0 →
        0.36 * p.k_v < 1 → g_180_peak p < 0 →
        f1336sgain p 0 0 = p.max_gain_dbi) ∧
    (∀ p : F1336sParams, p.freq_range = .r04_6 → p.pattern_type = .average →
        p.tilt_type = .none_ → p.tilt_angle_deg = 0 →
        0.33 * p.k_v < 1.33 → g_180_average p < 0 →
        f1336sgain p 0 0 = p.max_gain_dbi) ∧
    (∀ p : F1336sParams, p.freq_range = .r6_70 →
        p.tilt_type = .none_ → p.tilt_angle_deg = 0 → 0 < p.beamwidth_az_deg →
        f1336sgain p 0 0 = p.max_gain_dbi) := by
  have haz : normalize_azimuth 0 = 0 := normalize_azimuth_id le_rfl (by norm_num)
  have hel : normalize_elevation 0 = 0 := normalize_elevation_id (by norm_num) (by norm_num)
  refine ⟨?_, ?_, ?_, ?_⟩
  · intro p m d b hm hd hb hlow
    cases b with
    | low =>
      have hl := hlow rfl
      simp [f699gain, keyGet, hm, hd, hb, bind, Except.bind, normalize_zero, hl,
        f699gain_23]
    | mid =>
      simp only [f699gain, keyGet, hm, hd, hb, bind, Except.bind, normalize_zero]
      rw [if_neg (by simp : ¬ (FreqBand.mid = FreqBand.low))]
      split_ifs with h <;>
        simp [f699gain_21, f699gain_22, keyGet, bind, Except.bind, hm]
    | high =>
      simp only [f699gain, keyGet, hm, hd, hb, bind, Except.bind, normalize_zero]
      rw [if_neg (by simp : ¬ (FreqBand.high = FreqBand.low))]
      split_ifs with h <;>
        simp [f699gain_21, f699gain_22, keyGet, bind, Except.bind, hm]
  · intro p h1 h2 h3 h4 hkv hg
    simp only [f1336sgain, haz, hel, normalize_tilted_angles, h1, h2, h3, h4, and_self,
      if_true]
    unfold gain_peak_04_6ghz
    norm_num [g_hr_peak_zero hg, g_vr_peak_zero hkv]
  · intro p h1 h2 h3 h4 hkv hg
    simp only [f1336sgain, haz, hel, normalize_tilted_angles, h1, h2, h3, h4, and_self,
      if_true]
    unfold gain_average_04_6ghz
    norm_num [g_hr_average_zero hg, g_vr_average_zero hkv]
  · intro p h1 h3 h4 hbw
    simp only [f1336sgain, haz, hel, normalize_tilted_angles, h1, h3, h4, and_self,
      if_true]
    cases h2 : p.pattern_type
    · unfold gain_average_6_70ghz
      norm_num [psi_zero]
    · unfold gain_peak_6_70ghz
      norm_num [psi_zero]

/-- Explicit value of the resolved Scenario B parameter set. -/
lemma scenarioB_eq :
    scenarioB = ⟨2000, 17, 65, .peak, .typical, .none_, 0, theta_3 17 65,
      0.7, 0.7, 0.8, 0.7, .r04_6⟩ := by
  simp [scenarioB, scenarioB_In, f1336s_post]
  norm_num

/-- C2 witness (Scenario B): azimuth beamwidth 65°, peak gain 17 dBi,
peak-type side lobes, tilt disabled — `gain(azimuth=0, elevation=0) = 17`. -/
theorem C2_witness_scenarioB : f1336sgain scenarioB 0 0 = 17 := by
  have he := scenarioB_eq
  have hθpos : 0 < theta_3 17 65 := by
    unfold theta_3
    positivity
  have hθle : theta_3 17 65 ≤ 180 := by
    have h2 : (10 : ℝ) ^ (-0.1 * (17 : ℝ)) ≤ (10 : ℝ) ^ ((-1 : ℝ)) :=
      Real.rpow_le_rpow_of_exponent_le (by norm_num) (by norm_num)
    have h3 : (10 : ℝ) ^ ((-1 : ℝ)) = 1 / 10 := by
      rw [show ((-1 : ℝ)) = ((-1 : ℤ) : ℝ) by norm_num, Real.rpow_intCast]
      norm_num
    rw [h3] at h2
    unfold theta_3
    rw [div_le_iff (by norm_num)]
    nlinarith
  have hg : g_180_peak scenarioB < 0 := by
    rw [he]
    unfold g_180_peak
    have h1 : log10 (1 + 8 * (0.7 : ℝ)) < 1 := by
      unfold log10
      rw [Real.logb_lt_iff_lt_rpow (by norm_num) (by norm_num), Real.rpow_one]
      norm_num
    have h4 : 0 ≤ log10 (180 / theta_3 17 65) := by
      unfold log10
      refine Real.logb_nonneg (by norm_num) ?_
      rw [le_div_iff hθpos]
      linarith
    simp only
    linarith
  have := C2_boresight_peak.2.1 scenarioB (by rw [he]) (by rw [he]) (by rw [he])
    (by rw [he]) (by rw [he]; norm_num) hg
  rw [this, he]

/-! ## C8: the electrical tilt transform -/

lemma degrees_arccos_mem (x : ℝ) :
    0 ≤ degrees (Real.arccos x) ∧ degrees (Real.arccos x) ≤ 180 := by
  have h1 := Real.arccos_nonneg x
  have h2 := Real.arccos_le_pi x
  have hπ := Real.pi_pos
  unfold degrees
  constructor
  · exact div_nonneg (by nlinarith) hπ.le
  · rw [div_le_iff hπ]
    nlinarith

/-- C8 (amended): for electrical tilt the elevation handed to the piecewise
formulas is exactly the proportional rescaling
`90*(theta+tilt)/(90 ± tilt)` — but the azimuth is **not** the normalized
input azimuth: it is the mechanical-transform arccosine value, which always
lies in [0, 180] (so a negative input azimuth can never pass through). -/
theorem C8_electrical_tilt_amended :
    ∀ (p : F1336sParams) (phi_h theta_h : ℝ), p.tilt_type = .electrical →
      (normalize_tilted_angles p phi_h theta_h).2 =
        (if theta_h + p.tilt_angle_deg ≥ 0 then
          90 * (theta_h + p.tilt_angle_deg) / (90 + p.tilt_angle_deg)
        else 90 * (theta_h + p.tilt_angle_deg) / (90 - p.tilt_angle_deg)) ∧
      0 ≤ (normalize_tilted_angles p phi_h theta_h).1 ∧
      (normalize_tilted_angles p phi_h theta_h).1 ≤ 180 := by
  intro p φh θh he
  have hne : ¬ (p.tilt_type = .none_ ∧ p.tilt_angle_deg = 0) := by
    rw [he]
    rintro ⟨h, -⟩
    cases h
  unfold normalize_tilted_angles
  rw [if_neg hne]
  simp only [he]
  refine ⟨by simp, ?_, ?_⟩
  · exact (degrees_arccos_mem _).1
  · exact (degrees_arccos_mem _).2

/-- C8 witness: the Scenario-B-like sectoral antenna with 45° electrical
tilt, queried at azimuth 30°, elevation 5°: the transformed elevation is
`90*(5+45)/(90+45)` and the transformed azimuth lies in [0, 180]. -/
theorem C8_witness :
    (normalize_tilted_angles tiltedParams 30 5).2 = 90 * (5 + 45) / (90 + 45) ∧
    0 ≤ (normalize_tilted_angles tiltedParams 30 5).1 ∧
    (normalize_tilted_angles tiltedParams 30 5).1 ≤ 180 := by
  have h := C8_electrical_tilt_amended tiltedParams 30 5 rfl
  refine ⟨?_, h.2.1, h.2.2⟩
  rw [h.1, show tiltedParams.tilt_angle_deg = 45 from rfl,
    if_pos (by norm_num : (5 : ℝ) + 45 ≥ 0)]

/-- C8 counterexample: for the same electrically tilted antenna the azimuth
handed on for input azimuth -90°, elevation 0° is 90° — not the unchanged
input azimuth -90° that the claim demands. -/
theorem C8_counterexample :
    (normalize_tilted_angles tiltedParams (-90) 0).1 = 90 ∧ (90 : ℝ) ≠ -90 := by
  refine ⟨?_, by norm_num⟩
  have hπ := Real.pi_ne_zero
  have hs0 : Real.sin (radians 0) = 0 := by simp [radians]
  have hc0 : Real.cos (radians 0) = 1 := by simp [radians]
  have hc90 : Real.cos (radians (-90)) = 0 := by
    rw [show radians (-90) = -(Real.pi / 2) by unfold radians; ring]
    rw [Real.cos_neg, Real.cos_pi_div_two]
  have hclamp0 : clampUnit 0 = 0 := by norm_num [clampUnit]
  unfold normalize_tilted_angles
  rw [if_neg (by rintro ⟨h, -⟩; cases h)]
  simp only [hs0, hc0, hc90]
  norm_num [hclamp0, Real.arcsin_zero]
  unfold degrees
  field_simp
  ring

/-! ## C7 and C10: the S.580 model and its S.465 delegate -/

/-- Reconfiguring an S.465 instance with just an in-range `d_to_l` replaces
its whole params dict by `{d_to_l: d}`, whatever it held before. -/
lemma s465set_delegate (prev : S465Dict) {d : ℝ} (h1 : 0.001 ≤ d) (h2 : d ≤ 10000) :
    s465set_params prev ⟨none, none, some d⟩ = (⟨none, none, some d⟩, none) := by
  have hval : s465validate ⟨none, none, some d⟩ = .ok ⟨none, none, some d⟩ := by
    simp [s465validate, checkOpt, bind, Except.bind, h1, h2]
  simp [s465set_params, hval, s465post]

/-- The S.465 gain law in the window (20, 48) for a delegate configured with
`d_to_l = d ≥ 50`. -/
lemma s465gain_at {d φ : ℝ} (h50 : 50 ≤ d) (h20 : 20 < φ) (h48 : φ < 48) (h180 : φ ≤ 180) :
    s465gain ⟨none, none, some d⟩ φ = .ok (some (32 - 25 * log10 φ)) := by
  have hd0 : (0 : ℝ) < d := by linarith
  have hid := normalize_off_axis_id (by linarith : (0 : ℝ) ≤ φ) h180
  have hmin : phi_min_465 d ≤ 2 := by
    unfold phi_min_465
    rw [if_pos (by linarith)]
    refine max_le (by norm_num) ?_
    rw [mul_one_div, div_le_iff hd0]
    linarith
  unfold s465gain
  simp only [keyGet, bind, Except.bind, hid]
  rw [if_neg (by push_neg; linarith), if_pos ⟨by linarith, h48⟩]

/-- C7: for a validly configured S.580 instance (own `d_to_l = d`, 50 ≤ d ≤
10000) and any normalized off-axis angle: below `phi_min` the undefined
marker; in [phi_min, 20] its own `29 - 25*log10(phi)` law; in the overlap
band (20, 26.3] the lower of its own -3.5 dB level and the delegate's gain
(which there equals `32 - 25*log10(phi)`); beyond 26.3 the delegate's gain
alone. -/
theorem C7_s580_delegate :
    ∀ (st : S580State) (d φ : ℝ), st.own.d_to_l = some d → 50 ≤ d → d ≤ 10000 →
      0 ≤ φ → φ ≤ 180 →
      ((φ < phi_min_580 d → (s580gain st φ).2 = .ok none) ∧
       (phi_min_580 d ≤ φ → φ ≤ 20 →
         (s580gain st φ).2 = .ok (some (29 - 25 * log10 φ))) ∧
       (20 < φ → φ ≤ 26.3 →
         s465gain ⟨none, none, some d⟩ φ = .ok (some (32 - 25 * log10 φ)) ∧
         (s580gain st φ).2 = .ok (some (min (-3.5) (32 - 25 * log10 φ)))) ∧
       (26.3 < φ → (s580gain st φ).2 = s465gain ⟨none, none, some d⟩ φ)) := by
  intro st d φ hown h50 hle h0 h180
  have hd0 : (0 : ℝ) < d := by linarith
  have hset := s465set_delegate st.delegate (by linarith) hle
  have hid := normalize_off_axis_id h0 h180
  have hm2 : phi_min_580 d ≤ 2 := by
    unfold phi_min_580
    refine max_le (by norm_num) ?_
    rw [show (100 : ℝ) * 1 / d = 100 / d by ring, div_le_iff hd0]
    linarith
  refine ⟨?_, ?_, ?_, ?_⟩
  · intro hlt
    simp only [s580gain, hown, hset, hid]
    rw [if_pos hlt]
  · intro hge h20
    simp only [s580gain, hown, hset, hid]
    rw [if_neg (not_lt.mpr hge), if_pos h20]
  · intro h20 h263
    have hgain := s465gain_at h50 h20 (by linarith) h180
    refine ⟨hgain, ?_⟩
    simp only [s580gain, hown, hset, hid]
    rw [if_neg (by push_neg; linarith), if_neg (by push_neg; linarith), if_pos h263]
    simp only [hgain]
  · intro h263
    simp only [s580gain, hown, hset, hid]
    rw [if_neg (by push_neg; linarith), if_neg (by push_neg; linarith),
      if_neg (by push_neg; linarith)]

/-- C7 witness: the concrete S.580 instance with `d_to_l = 50` at 25°, inside
the overlap band: the delegate's law applies and the result is the lower of
-3.5 dB and the delegate's gain. -/
theorem C7_witness :
    s465gain ⟨none, none, some 50⟩ 25 = .ok (some (32 - 25 * log10 25)) ∧
    (s580gain s580_example 25).2 = .ok (some (min (-3.5) (32 - 25 * log10 25))) := by
  have h := C7_s580_delegate s580_example 50 25 rfl (by norm_num) (by norm_num)
    (by norm_num) (by norm_num)
  exact h.2.2.1 (by norm_num) (by norm_num)

/-- The state after any `ITUS580.gain` call with an in-range own `d_to_l`:
the own dict is untouched and the delegate dict is the full replacement
`{d_to_l: d}`. -/
lemma s580gain_fst (st : S580State) {d : ℝ} (φ : ℝ) (hown : st.own.d_to_l = some d)
    (h1 : 0.001 ≤ d) (h2 : d ≤ 10000) :
    (s580gain st φ).1 = ⟨st.own, ⟨none, none, some d⟩⟩ := by
  simp only [s580gain, hown, s465set_delegate st.delegate h1 h2]
  split_ifs
  · rfl
  · rfl
  · cases hg : s465gain ⟨none, none, some d⟩ (normalize_off_axis_angle φ) with
    | error e => simp [hg]
    | ok o => cases o <;> simp [hg]
  · rfl

/-- The response of `ITUS580.gain` depends only on the own params dict, not
on the delegate's previous state (the delegate is re-set before use). -/
lemma s580gain_snd_own (st₁ st₂ : S580State) (φ : ℝ) (h : st₁.own = st₂.own) :
    (s580gain st₁ φ).2 = (s580gain st₂ φ).2 := by
  unfold s580gain
  rw [h]
  cases hdl : st₂.own.d_to_l with
  | none => rfl
  | some d =>
    cases hv : s465validate ⟨none, none, some d⟩ with
    | error e => simp [s465set_params, hv]
    | ok v =>
      cases hp : s465post v with
      | error e => simp [s465set_params, hv, hp]
      | ok w => simp [s465set_params, hv, hp]

/-- C10 (amended): a gain query on a configured S.580 instance leaves the
instance's own parameter set unchanged and repeated queries return the same
value — but it does rewrite the owned delegate's parameter set, replacing it
with `{d_to_l: own d_to_l}` on every call. -/
theorem C10_gain_state_amended :
    ∀ (st : S580State) (d φ : ℝ), st.own.d_to_l = some d → 50 ≤ d → d ≤ 10000 →
      (s580gain st φ).1.own = st.own ∧
      (s580gain st φ).1.delegate = ⟨none, none, some d⟩ ∧
      (s580gain ((s580gain st φ).1) φ).2 = (s580gain st φ).2 := by
  intro st d φ hown h50 hle
  have hfst := s580gain_fst st φ hown (by linarith) hle
  refine ⟨by rw [hfst], by rw [hfst], ?_⟩
  exact s580gain_snd_own _ _ φ (by rw [hfst])

/-- C10 witness: the concrete S.580 instance, own `d_to_l = 50`, queried at
3°: own params unchanged, delegate rewritten to `{d_to_l: 50}`, and the
repeated query returns the same value. -/
theorem C10_witness :
    (s580gain s580_example 3).1.own = s580_example.own ∧
    (s580gain s580_example 3).1.delegate = ⟨none, none, some 50⟩ ∧
    (s580gain ((s580gain s580_example 3).1) 3).2 = (s580gain s580_example 3).2 :=
  C10_gain_state_amended s580_example 50 3 rfl (by norm_num) (by norm_num)

/-- C10 counterexample: the very first gain query on a configured S.580
instance succeeds but changes the stored parameter set of its freshly
constructed delegate from `{}` to `{d_to_l: 50}` — the claim's requirement
that the delegate's stored parameters stay unchanged fails. -/
theorem C10_counterexample :
    (s580gain s580_example 3).2 = .ok (some (29 - 25 * log10 3)) ∧
    (s580gain s580_example 3).1.delegate ≠ s580_example.delegate := by
  have hfst := s580gain_fst s580_example 3 rfl (by norm_num) (by norm_num)
  have hm : phi_min_580 50 = 2 := by
    unfold phi_min_580
    rw [show (100 : ℝ) * 1 / 50 = 2 by norm_num, max_eq_right (by norm_num)]
  constructor
  · simp only [s580gain, show s580_example.own.d_to_l = some 50 from rfl,
      s465set_delegate s580_example.delegate
        (by norm_num : (0.001 : ℝ) ≤ 50) (by norm_num : (50 : ℝ) ≤ 10000),
      normalize_off_axis_id (by norm_num : (0 : ℝ) ≤ 3) (by norm_num : (3 : ℝ) ≤ 180)]
    rw [if_neg (by rw [hm]; norm_num), if_pos (by norm_num : (3 : ℝ) ≤ 20)]
  · rw [hfst]
    intro h
    have := congrArg S465Dict.d_to_l h
    simp [s580_example] at this

/-! ## List and rounding lemmas for the pattern builders -/

lemma mapME_ok_length {α β : Type} {f : α → Except PyErr β} :
    ∀ {l : List α} {ys : List β}, mapME f l = .ok ys → ys.length = l.length := by
  intro l
  induction l with
  | nil =>
    intro ys h
    simp only [mapME] at h
    cases h
    rfl
  | cons a t ih =>
    intro ys h
    simp only [mapME, bind, Except.bind] at h
    cases hf : f a with
    | error e => rw [hf] at h; cases h
    | ok b =>
      rw [hf] at h
      cases hr : mapME f t with
      | error e => rw [hr] at h; cases h
      | ok r =>
        rw [hr] at h
        cases h
        simp [ih hr]

lemma mapME_ok_of_forall {α β : Type} {f : α → Except PyErr β} {g : α → β} :
    ∀ (l : List α), (∀ a ∈ l, f a = .ok (g a)) → mapME f l = .ok (l.map g) := by
  intro l
  induction l with
  | nil => intro _; rfl
  | cons a t ih =>
    intro h
    simp [mapME, bind, Except.bind, h a (List.mem_cons_self a t),
      ih (fun x hx => h x (List.mem_cons_of_mem a hx))]

lemma mapME_ok_get {α β : Type} {f : α → Except PyErr β} :
    ∀ {l : List α} {ys : List β}, mapME f l = .ok ys →
      ∀ (i : ℕ) (b : α), l[i]? = some b → ∃ c, ys[i]? = some c ∧ f b = .ok c := by
  intro l
  induction l with
  | nil =>
    intro ys h i b hb
    simp at hb
  | cons a t ih =>
    intro ys h i b hb
    simp only [mapME, bind, Except.bind] at h
    cases hf : f a with
    | error e => rw [hf] at h; cases h
    | ok c0 =>
      rw [hf] at h
      cases hr : mapME f t with
      | error e => rw [hr] at h; cases h
      | ok r =>
        rw [hr] at h
        cases h
        cases i with
        | zero =>
          simp at hb
          exact ⟨c0, by simp, hb ▸ hf⟩
        | succ j =>
          simp only [List.getElem?_cons_succ] at hb
          obtain ⟨c, hc1, hc2⟩ := ih hr j b hb
          exact ⟨c, by simpa using hc1, hc2⟩

lemma mapME_ok_exists {α β : Type} {f : α → Except PyErr β} :
    ∀ (l : List α), (∀ a ∈ l, ∃ b, f a = .ok b) → ∃ ys, mapME f l = .ok ys := by
  intro l
  induction l with
  | nil => intro _; exact ⟨[], rfl⟩
  | cons a t ih =>
    intro h
    obtain ⟨b, hb⟩ := h a (List.mem_cons_self a t)
    obtain ⟨r, hr⟩ := ih (fun x hx => h x (List.mem_cons_of_mem a hx))
    exact ⟨b :: r, by simp [mapME, bind, Except.bind, hb, hr]⟩

lemma round2_ge (x : ℝ) : x - 1 / 200 ≤ round2 x := by
  unfold round2
  split_ifs with h1 h2
  · have hx : ((⌊(100 : ℝ) * x⌋ : ℤ) : ℝ) = 100 * x - 1 / 2 := by
      unfold Int.fract at h1
      linarith
    rw [hx]
    linarith
  · have hx : ((⌊(100 : ℝ) * x⌋ : ℤ) : ℝ) = 100 * x - 1 / 2 := by
      unfold Int.fract at h1
      linarith
    rw [hx]
    linarith
  · have h := abs_sub_round ((100 : ℝ) * x)
    rw [abs_le] at h
    have := h.2
    linarith

lemma round2_nonneg {x : ℝ} (hx : -(1 / 200) ≤ x) : 0 ≤ round2 x := by
  unfold round2
  split_ifs with h1 h2
  · have hfl : ((⌊(100 : ℝ) * x⌋ : ℤ) : ℝ) = 100 * x - 1 / 2 := by
      unfold Int.fract at h1
      linarith
    have hge : (-1 : ℤ) ≤ ⌊(100 : ℝ) * x⌋ := by
      have : ((-1 : ℤ) : ℝ) ≤ ((⌊(100 : ℝ) * x⌋ : ℤ) : ℝ) := by
        rw [hfl]
        push_cast
        linarith
      exact_mod_cast this
    have heven := Int.even_iff.mp h2
    have hge0 : (0 : ℤ) ≤ ⌊(100 : ℝ) * x⌋ := by omega
    have h0 : (0 : ℝ) ≤ ((⌊(100 : ℝ) * x⌋ : ℤ) : ℝ) := by exact_mod_cast hge0
    exact div_nonneg h0 (by norm_num)
  · have hfl : ((⌊(100 : ℝ) * x⌋ : ℤ) : ℝ) = 100 * x - 1 / 2 := by
      unfold Int.fract at h1
      linarith
    have hge : (-1 : ℤ) ≤ ⌊(100 : ℝ) * x⌋ := by
      have : ((-1 : ℤ) : ℝ) ≤ ((⌊(100 : ℝ) * x⌋ : ℤ) : ℝ) := by
        rw [hfl]
        push_cast
        linarith
      exact_mod_cast this
    have h0 : (0 : ℝ) ≤ ((⌊(100 : ℝ) * x⌋ : ℤ) : ℝ) + 1 := by
      have : ((-1 : ℤ) : ℝ) ≤ ((⌊(100 : ℝ) * x⌋ : ℤ) : ℝ) := by exact_mod_cast hge
      linarith
    exact div_nonneg h0 (by norm_num)
  · have hround : (0 : ℤ) ≤ round ((100 : ℝ) * x) := by
      rw [round_eq]
      have h0 : (0 : ℝ) ≤ 100 * x + 1 / 2 := by linarith
      exact Int.floor_nonneg.mpr h0
    have h0 : (0 : ℝ) ≤ ((round ((100 : ℝ) * x) : ℤ) : ℝ) := by exact_mod_cast hround
    exact div_nonneg h0 (by norm_num)

/-! ## C9: idempotence and periodicity of the angle normalizers -/

lemma pyMod360_neg_abs (y : ℝ) :
    |pyMod (-y) 360 - 180| = |pyMod y 360 - 180| := by
  by_cases h : Int.fract (y / 360) = 0
  · have h2 : Int.fract (-y / 360) = 0 := by
      rw [neg_div, Int.fract_neg_eq_zero]
      exact h
    rw [pyMod360_eq, pyMod360_eq, neg_div, Int.fract_neg_eq_zero.mpr h, h]
  · have h2 : Int.fract (-y / 360) = 1 - Int.fract (y / 360) := by
      rw [neg_div]
      exact Int.fract_neg h
    rw [pyMod360_eq, pyMod360_eq, h2]
    rw [show (360 : ℝ) * (1 - Int.fract (y / 360)) - 180 =
      -(360 * Int.fract (y / 360) - 180) by ring, abs_neg]

lemma elevRef_mem (x : ℝ) : -90 ≤ elevRef x ∧ elevRef x ≤ 90 := by
  unfold elevRef
  have h1 := pyMod360_nonneg (x + 90)
  have h2 := pyMod360_lt (x + 90)
  have h3 : |pyMod (x + 90) 360 - 180| ≤ 180 := by
    rw [abs_le]
    constructor <;> linarith
  have h4 : 0 ≤ |pyMod (x + 90) 360 - 180| := abs_nonneg _
  constructor <;> linarith

lemma elevRef_of_base {x : ℝ} (h1 : -90 ≤ x) (h2 : x ≤ 90) : elevRef x = x := by
  unfold elevRef
  rw [pyMod360_eq_self (by linarith) (by linarith)]
  rw [show x + 90 - 180 = -(90 - x) by ring, abs_neg, abs_of_nonneg (by linarith)]
  ring

lemma elevRef_step_high (x : ℝ) : elevRef (180 - x) = elevRef x := by
  unfold elevRef
  rw [show (180 : ℝ) - x + 90 = -(x + 90) + 360 * ((1 : ℤ) : ℝ) by push_cast; ring,
    pyMod360_intmul, pyMod360_neg_abs]

lemma elevRef_step_low (x : ℝ) : elevRef (-180 - x) = elevRef x := by
  unfold elevRef
  rw [show (-180 : ℝ) - x + 90 = -(x + 90) by ring, pyMod360_neg_abs]

lemma normalize_elevation_eq (x : ℝ) : normalize_elevation x = elevRef x := by
  induction x using normalize_elevation.induct with
  | case1 x h ih =>
    rw [normalize_elevation, dif_pos h, ih, elevRef_step_high]
  | case2 x h1 h2 ih =>
    rw [normalize_elevation, dif_neg h1, dif_pos h2, ih, elevRef_step_low]
  | case3 x h1 h2 =>
    rw [normalize_elevation, dif_neg h1, dif_neg h2,
      elevRef_of_base (by linarith) (by linarith)]

lemma normalize_azimuth_mem (x : ℝ) :
    -180 < normalize_azimuth x ∧ normalize_azimuth x ≤ 180 := by
  unfold normalize_azimuth
  dsimp only
  have h1 := pyMod360_nonneg x
  have h2 := pyMod360_lt x
  split_ifs with h <;> constructor <;> linarith

/-- C9: each angle-normalization function — the off-axis wrap-and-mirror into
[0, 180], the azimuth wrap into (-180, 180], and the iterated pole
reflection of elevation into [-90, 90] — is idempotent and 360°-periodic. -/
theorem C9_normalizers_idempotent_periodic :
    (∀ x : ℝ, normalize_off_axis_angle (normalize_off_axis_angle x) =
        normalize_off_axis_angle x) ∧
    (∀ (x : ℝ) (k : ℤ), normalize_off_axis_angle (x + 360 * k) =
        normalize_off_axis_angle x) ∧
    (∀ x : ℝ, normalize_azimuth (normalize_azimuth x) = normalize_azimuth x) ∧
    (∀ (x : ℝ) (k : ℤ), normalize_azimuth (x + 360 * k) = normalize_azimuth x) ∧
    (∀ x : ℝ, normalize_elevation (normalize_elevation x) = normalize_elevation x) ∧
    (∀ (x : ℝ) (k : ℤ), normalize_elevation (x + 360 * k) = normalize_elevation x) := by
  refine ⟨?_, ?_, ?_, ?_, ?_, ?_⟩
  · intro x
    have h := normalize_off_axis_mem x
    exact normalize_off_axis_id h.1 h.2
  · intro x k
    rw [normalize_off_axis_eq, normalize_off_axis_eq, pyMod360_intmul]
  · intro x
    have h := normalize_azimuth_mem x
    rcases le_or_lt 0 (normalize_azimuth x) with h0 | h0
    · exact normalize_azimuth_id h0 h.2
    · set r := normalize_azimuth x with hr
      unfold normalize_azimuth
      have hmod : pyMod r 360 = r + 360 := by
        have : pyMod (r + 360) 360 = r + 360 :=
          pyMod360_eq_self (by linarith [h.1]) (by linarith)
        calc pyMod r 360 = pyMod ((r + 360) + 360 * ((-1 : ℤ) : ℝ)) 360 := by
              norm_num
          _ = pyMod (r + 360) 360 := pyMod360_intmul _ _
          _ = r + 360 := this
      rw [hmod, if_pos (by linarith [h.1])]
      ring
  · intro x k
    unfold normalize_azimuth
    rw [pyMod360_intmul]
  · intro x
    rw [normalize_elevation_eq x]
    have h := elevRef_mem x
    exact normalize_elevation_id h.1 h.2
  · intro x k
    rw [normalize_elevation_eq, normalize_elevation_eq]
    unfold elevRef
    rw [show x + 360 * (k : ℝ) + 90 = (x + 90) + 360 * k by ring, pyMod360_intmul]

/-! ## C4 and C5: the pattern builders -/

lemma phi_min_465_mem {d : ℝ} (hd : 0 < d) : 1 ≤ phi_min_465 d ∧ phi_min_465 d ≤ 4 := by
  unfold phi_min_465
  split_ifs with h1 h2
  · refine ⟨le_max_left _ _, max_le (by norm_num) ?_⟩
    rw [mul_one_div, div_le_iff hd]
    linarith
  · refine ⟨le_trans (by norm_num) (le_max_left 2 _), max_le (by norm_num) ?_⟩
    have hd1 : (1 : ℝ) ≤ d := by linarith
    have e1 : d ^ ((-1.09 : ℝ)) ≤ d ^ ((-1 : ℝ)) :=
      Real.rpow_le_rpow_of_exponent_le hd1 (by norm_num)
    have e2 : d ^ ((-1 : ℝ)) = 1 / d := by
      rw [Real.rpow_neg_one, one_div]
    have e3 : (1 : ℝ) / d ≤ 1 / 33.3 :=
      one_div_le_one_div_of_le (by norm_num) h2
    rw [e2] at e1
    nlinarith
  · constructor <;> norm_num

lemma s465gain_eval {p : S465Dict} {d : ℝ} (hd : p.d_to_l = some d)
    {φ : ℝ} (h0 : 0 ≤ φ) (h180 : φ ≤ 180) :
    s465gain p φ = .ok (if φ < phi_min_465 d then none
      else if φ < 48 then some (32 - 25 * log10 φ) else some (-10)) := by
  unfold s465gain
  simp only [keyGet, hd, bind, Except.bind, normalize_off_axis_id h0 h180]
  by_cases h1 : φ < phi_min_465 d
  · rw [if_pos h1, if_pos h1]
  · rw [if_neg h1, if_neg h1]
    by_cases h2 : φ < 48
    · rw [if_pos ⟨not_lt.mp h1, h2⟩, if_pos h2]
    · rw [if_neg (fun hc => h2 hc.2), if_neg h2]

lemma s465gain_norm (p : S465Dict) (x : ℝ) :
    s465gain p x = s465gain p (normalize_off_axis_angle x) := by
  unfold s465gain
  rw [normalize_off_axis_id (normalize_off_axis_mem x).1 (normalize_off_axis_mem x).2]

lemma s465val_le {d φ : ℝ} (hd0 : 0 < d) (hmle : phi_min_465 d ≤ φ) :
    (if φ < 48 then 32 - 25 * log10 φ else (-10 : ℝ)) ≤
      32 - 25 * log10 (phi_min_465 d) := by
  obtain ⟨hm1, hm4⟩ := phi_min_465_mem hd0
  have hlogm : log10 (phi_min_465 d) ≤ 1 := by
    unfold log10
    rw [Real.logb_le_iff_le_rpow (by norm_num) (by linarith), Real.rpow_one]
    linarith
  split_ifs with h
  · have hmono : log10 (phi_min_465 d) ≤ log10 φ :=
      Real.logb_le_logb_of_le (by norm_num) (by linarith) hmle
    linarith
  · linarith

lemma f699_update_specs_ok {p : F699Dict} {s : PatternSpecs}
    (h : f699_update_specs p = .ok s) :
    ∃ dl m ls, p.d_to_l = some dl ∧ p.max_gain_dbi = some m ∧
      mapME (f699loss_entry p m) (List.range 361) = .ok ls ∧
      s = ⟨round2 m, List.range 361, ls, ls⟩ := by
  unfold f699_update_specs at h
  cases hd : p.d_to_l with
  | none =>
    simp only [keyGet, hd, bind, Except.bind] at h
    exact (Except.noConfusion h)
  | some dl =>
    cases hm : p.max_gain_dbi with
    | none =>
      simp only [keyGet, hd, hm, bind, Except.bind] at h
      exact (Except.noConfusion h)
    | some m =>
      simp only [keyGet, hd, hm, bind, Except.bind] at h
      cases hls : mapME (f699loss_entry p m) (List.range 361) with
      | error e => rw [hls] at h; cases h
      | ok ls =>
        rw [hls] at h
        cases h
        exact ⟨dl, m, ls, rfl, rfl, hls, rfl⟩

lemma s465_update_specs_ok {p : S465Dict} {s : PatternSpecsOpt}
    (h : s465_update_specs p = .ok s) :
    ∃ d v ls, p.d_to_l = some d ∧
      s465gain p (phi_min_465 d) = .ok (some v) ∧
      mapME (s465loss_entry p (round2 v)) (List.range 361) = .ok ls ∧
      s = ⟨round2 v, List.range 361, ls, ls⟩ := by
  unfold s465_update_specs at h
  cases hd : p.d_to_l with
  | none =>
    simp only [keyGet, hd, bind, Except.bind] at h
    exact (Except.noConfusion h)
  | some d =>
    simp only [keyGet, hd, bind, Except.bind] at h
    cases hg : s465gain p (phi_min_465 d) with
    | error e => rw [hg] at h; cases h
    | ok o =>
      rw [hg] at h
      cases o with
      | none =>
        simp only [bind, Except.bind] at h
        exact (Except.noConfusion h)
      | some v =>
        simp only [bind, Except.bind] at h
        cases hls : mapME (s465loss_entry p (round2 v)) (List.range 361) with
        | error e => rw [hls] at h; cases h
        | ok ls =>
          rw [hls] at h
          cases h
          exact ⟨d, v, ls, rfl, hg, hls, rfl⟩

/-- C4 (amended): in every produced pattern sequence, at every angle where
the gain is defined the recorded loss is `peak_gain - gain(angle)` rounded
to two decimals (not the exact difference), and that loss is ≥ -1e-9
whenever the gain does not exceed the stored peak (for S.465 this is
unconditional: the swept gains never exceed the gain at `phi_min` and
rounding the peak costs at most half a cent); where the gain is undefined
the entry is the `'n/a'` marker. -/
theorem C4_loss_amended :
    (∀ (p : F699Dict) (m : ℝ) (s : PatternSpecs), p.max_gain_dbi = some m →
        f699_update_specs p = .ok s →
        ∀ (a : ℕ), a < 361 → ∀ g : ℝ, f699gain p ((a : ℕ) : ℝ) = .ok (some g) →
          s.h_loss[a]? = some (round2 (m - g)) ∧
          (g ≤ m → -(1 / 1000000000) ≤ round2 (m - g))) ∧
    (∀ (p : S465Dict) (d : ℝ) (s : PatternSpecsOpt), p.d_to_l = some d → 0 < d →
        s465_update_specs p = .ok s →
        ∀ (a : ℕ), a < 361 →
          (∀ g : ℝ, s465gain p ((a : ℕ) : ℝ) = .ok (some g) →
            s.h_loss[a]? = some (some (round2 (s.gain_field - g))) ∧
            -(1 / 1000000000) ≤ round2 (s.gain_field - g)) ∧
          (s465gain p ((a : ℕ) : ℝ) = .ok none → s.h_loss[a]? = some none)) := by
  constructor
  · intro p m s hm hb a ha g hg
    obtain ⟨dl, m', ls, hd', hm', hls, hs⟩ := f699_update_specs_ok hb
    rw [hm] at hm'
    cases hm'
    obtain ⟨c, hc1, hc2⟩ := mapME_ok_get hls a a (List.getElem?_range ha)
    have hentry : f699loss_entry p m a = .ok (round2 (m - g)) := by
      unfold f699loss_entry
      simp [hg, bind, Except.bind]
    rw [hentry] at hc2
    cases hc2
    subst hs
    refine ⟨hc1, ?_⟩
    intro hle
    have := round2_nonneg (x := m - g) (by linarith)
    linarith
  · intro p d s hd hd0 hb a ha
    obtain ⟨d', v, ls, hd', hg0, hls, hs⟩ := s465_update_specs_ok hb
    rw [hd] at hd'
    cases hd'
    obtain ⟨hm1, hm4⟩ := phi_min_465_mem hd0
    have hvval : v = 32 - 25 * log10 (phi_min_465 d) := by
      have := s465gain_eval hd (φ := phi_min_465 d) (by linarith) (by linarith)
      rw [if_neg (lt_irrefl _), if_pos (by linarith)] at this
      rw [this] at hg0
      cases hg0
      rfl
    have hmem := normalize_off_axis_mem ((a : ℕ) : ℝ)
    have heval : s465gain p ((a : ℕ) : ℝ) =
        .ok (if normalize_off_axis_angle ((a : ℕ) : ℝ) < phi_min_465 d then none
          else if normalize_off_axis_angle ((a : ℕ) : ℝ) < 48 then
            some (32 - 25 * log10 (normalize_off_axis_angle ((a : ℕ) : ℝ)))
          else some (-10)) := by
      rw [s465gain_norm]
      exact s465gain_eval hd hmem.1 hmem.2
    obtain ⟨c, hc1, hc2⟩ := mapME_ok_get hls a a (List.getElem?_range ha)
    constructor
    · intro g hg
      have hgle : g ≤ v := by
        rw [heval] at hg
        rw [hvval]
        have hite := Except.ok.inj hg
        by_cases h1 : normalize_off_axis_angle ((a : ℕ) : ℝ) < phi_min_465 d
        · rw [if_pos h1] at hite
          cases hite
        · rw [if_neg h1] at hite
          have hle := s465val_le hd0 (not_lt.mp h1)
          by_cases h2 : normalize_off_axis_angle ((a : ℕ) : ℝ) < 48
          · rw [if_pos h2] at hite
            rw [if_pos h2] at hle
            rw [← Option.some.inj hite]
            exact hle
          · rw [if_neg h2] at hite
            rw [if_neg h2] at hle
            rw [← Option.some.inj hite]
            exact hle
      have hentry : s465loss_entry p (round2 v) a = .ok (some (round2 (round2 v - g))) := by
        unfold s465loss_entry
        simp [hg, bind, Except.bind]
      rw [hentry] at hc2
      cases hc2
      subst hs
      refine ⟨hc1, ?_⟩
      have hr2 := round2_ge v
      have := round2_nonneg (x := round2 v - g) (by linarith)
      linarith
    · intro hg
      have hentry : s465loss_entry p (round2 v) a = .ok none := by
        unfold s465loss_entry
        simp [hg, bind, Except.bind]
      rw [hentry] at hc2
      cases hc2
      subst hs
      exact hc1

/-- On a mid-band F.699 configuration with D/λ ≤ 100 and a nonnegative
discriminant, every gain query returns a defined numeric value. -/
lemma f699gain_total_mid {p : F699Dict} {m d : ℝ} (hm : p.max_gain_dbi = some m)
    (hd : p.d_to_l = some d) (hb : p.freq_band = some .mid) (hd100 : ¬ d > 100)
    (hdisc : ¬ (m - (2 + 15 * log10 d) < 0)) :
    ∀ angle : ℝ, ∃ v, f699gain p angle = .ok (some v) := by
  intro angle
  obtain ⟨h0, h180⟩ := normalize_off_axis_mem angle
  unfold f699gain
  simp only [keyGet, hb, hd, bind, Except.bind]
  rw [if_neg (by simp : ¬ (FreqBand.mid = FreqBand.low)), if_neg hd100]
  unfold f699gain_22
  simp only [keyGet, hm, hd, hb, bind, Except.bind]
  by_cases hz : normalize_off_axis_angle angle = 0
  · rw [if_pos hz]
    exact ⟨m, rfl⟩
  · rw [if_neg hz]
    simp only [if_true]
    rw [if_neg hdisc]
    split_ifs with c1 c2 c3 c4
    · exact ⟨_, rfl⟩
    · exact ⟨_, rfl⟩
    · exact ⟨_, rfl⟩
    · exact ⟨_, rfl⟩
    · push_neg at c1 c2 c3 c4
      have hpos : 0 < normalize_off_axis_angle angle := lt_of_le_of_ne h0 (Ne.symm hz)
      have e1 := c1 hpos
      have e2 := c2 e1
      have e3 := c3 e2
      have e4 := c4 e3
      linarith

/-- An S.465 instance with a stored `d_to_l` never raises from `gain`. -/
lemma s465gain_ok {p : S465Dict} {d : ℝ} (hd : p.d_to_l = some d) :
    ∀ x : ℝ, ∃ o, s465gain p x = .ok o := by
  intro x
  unfold s465gain
  simp only [keyGet, hd, bind, Except.bind]
  split_ifs
  · exact ⟨_, rfl⟩
  · exact ⟨_, rfl⟩
  · exact ⟨_, rfl⟩

/-- C5: every pattern sequence assembled by the F.699 or F.1336 sectoral
builder carries exactly the integer angle keys 0..360 in strictly increasing
order, with a loss entry for each of the 361 angles in both planes. -/
theorem C5_pattern_361_entries :
    (∀ (p : F699Dict) (s : PatternSpecs), f699_update_specs p = .ok s →
        s.angles = List.range 361 ∧ s.angles.length = 361 ∧
        List.Pairwise (· < ·) s.angles ∧ s.h_loss.length = 361 ∧
        s.v_loss.length = 361) ∧
    (∀ (p : S465Dict) (s : PatternSpecsOpt), s465_update_specs p = .ok s →
        s.angles = List.range 361 ∧ s.angles.length = 361 ∧
        List.Pairwise (· < ·) s.angles ∧ s.h_loss.length = 361 ∧
        s.v_loss.length = 361) ∧
    (∀ p : F1336sParams,
        (f1336s_update_specs p).angles = List.range 361 ∧
        (f1336s_update_specs p).angles.length = 361 ∧
        List.Pairwise (· < ·) (f1336s_update_specs p).angles ∧
        (f1336s_update_specs p).h_loss.length = 361 ∧
        (f1336s_update_specs p).v_loss.length = 361) := by
  refine ⟨?_, ?_, ?_⟩
  · intro p s h
    obtain ⟨dl, m, ls, hd, hm, hls, hs⟩ := f699_update_specs_ok h
    have hlen := mapME_ok_length hls
    subst hs
    have hlen361 : ls.length = 361 := by
      rw [hlen, List.length_range]
    exact ⟨rfl, List.length_range 361, List.pairwise_lt_range 361, hlen361, hlen361⟩
  · intro p s h
    obtain ⟨d, v, ls, hd, hg, hls, hs⟩ := s465_update_specs_ok h
    have hlen := mapME_ok_length hls
    subst hs
    have hlen361 : ls.length = 361 := by
      rw [hlen, List.length_range]
    exact ⟨rfl, List.length_range 361, List.pairwise_lt_range 361, hlen361, hlen361⟩
  · intro p
    refine ⟨rfl, List.length_range 361, List.pairwise_lt_range 361, ?_, ?_⟩
    · show ((List.range 361).map (fun a : ℕ =>
        round2 (p.max_gain_dbi - f1336sgain p (a : ℝ) 0))).length = 361
      rw [List.length_map, List.length_range]
    · show ((List.range 361).map (fun a : ℕ =>
        round2 (p.max_gain_dbi -
          f1336sgain p (if 90 < a ∧ a < 270 then (180 : ℝ) else 0) (a : ℝ)))).length = 361
      rw [List.length_map, List.length_range]

/-- Explicit value of the C4 counterexample configuration: D/λ derives to
exactly 1 and the peak gain to exactly 7.7 dBi. -/
lemma c4_config_eq : c4_config = (c4_dict, none) := by
  unfold c4_dict
  have hval : f699validate ⟨some 2000, some 0.149896229, none, none⟩ =
      .ok ⟨some 2000, some 0.149896229, none, none, none, none⟩ := by
    simp [f699validate, checkOpt, bind, Except.bind]
    norm_num
  have hdl : (0.149896229 : ℝ) / wavelength 2000 = 1 := by
    simp [wavelength]
    norm_num
  have hg : g_max_from_d_to_l 1 = 7.7 := by
    simp [g_max_from_d_to_l, log10, Real.logb_one]
  have hpost : f699post ⟨some 2000, some 0.149896229, none, none, none, none⟩ =
      .ok ⟨some 2000, some 0.149896229, some 7.7, none, some .mid, some 1⟩ := by
    simp only [f699post]
    rw [hdl, hg]
    norm_num
  simp [c4_config, f699set_params, hval, hpost]

lemma log10_one : log10 (1 : ℝ) = 0 := by
  simp [log10]

lemma c4_sqrt_form :
    ((7.7 : ℝ) - (2 + 15 * log10 1)) ^ ((0.5 : ℝ)) = Real.sqrt 5.7 := by
  rw [log10_one, Real.sqrt_eq_rpow]
  norm_num

lemma c4_gain_100 : f699gain c4_dict 100 = .ok (some 10) := by
  have hφm : 20 * 1 / 1 * ((7.7 : ℝ) - (2 + 15 * log10 1)) ^ ((0.5 : ℝ)) < 100 := by
    rw [c4_sqrt_form]
    have hs5 : Real.sqrt 5.7 < 5 := (Real.sqrt_lt' (by norm_num)).mpr (by norm_num)
    linarith
  unfold f699gain
  simp only [c4_dict, keyGet, bind, Except.bind,
    normalize_off_axis_id (by norm_num : (0 : ℝ) ≤ 100) (by norm_num : (100 : ℝ) ≤ 180)]
  rw [if_neg (by simp : ¬ (FreqBand.mid = FreqBand.low)),
    if_neg (by norm_num : ¬ (1 : ℝ) > 100)]
  unfold f699gain_22
  simp only [keyGet, bind, Except.bind]
  rw [if_neg (by norm_num : ¬ (100 : ℝ) = 0)]
  simp only [if_true]
  rw [if_neg (by rw [log10_one]; norm_num :
      ¬ ((7.7 : ℝ) - (2 + 15 * log10 1) < 0))]
  rw [if_neg (by push_neg; intro _; linarith),
    if_neg (by push_neg; intro _; norm_num),
    if_neg (by push_neg; intro _; norm_num),
    if_pos (by norm_num : (48 : ℝ) ≤ 100 ∧ (100 : ℝ) ≤ 180)]
  rw [log10_one]
  norm_num

lemma c4_gain_47 : f699gain c4_dict 47 = .ok (some 2.1775) := by
  have hφm : (47 : ℝ) < 20 * 1 / 1 * ((7.7 : ℝ) - (2 + 15 * log10 1)) ^ ((0.5 : ℝ)) := by
    rw [c4_sqrt_form]
    have hs5 : (2.35 : ℝ) < Real.sqrt 5.7 := by
      rw [show (5.7 : ℝ) = 5.7 from rfl]
      exact (Real.lt_sqrt (by norm_num)).mpr (by norm_num)
    linarith
  unfold f699gain
  simp only [c4_dict, keyGet, bind, Except.bind,
    normalize_off_axis_id (by norm_num : (0 : ℝ) ≤ 47) (by norm_num : (47 : ℝ) ≤ 180)]
  rw [if_neg (by simp : ¬ (FreqBand.mid = FreqBand.low)),
    if_neg (by norm_num : ¬ (1 : ℝ) > 100)]
  unfold f699gain_22
  simp only [keyGet, bind, Except.bind]
  rw [if_neg (by norm_num : ¬ (47 : ℝ) = 0)]
  simp only [if_true]
  rw [if_neg (by rw [log10_one]; norm_num :
      ¬ ((7.7 : ℝ) - (2 + 15 * log10 1) < 0))]
  rw [if_pos ⟨by norm_num, hφm⟩]
  norm_num

lemma round2_neg23 : round2 ((7.7 : ℝ) - 10) = -2.3 := by
  unfold round2
  rw [show (100 : ℝ) * (7.7 - 10) = ((-230 : ℤ) : ℝ) by norm_num]
  rw [Int.fract_intCast, if_neg (by norm_num), round_intCast]
  norm_num

lemma round2_55225 : round2 ((7.7 : ℝ) - 2.1775) = 5.52 := by
  have h100 : (100 : ℝ) * (7.7 - 2.1775) = 552.25 := by norm_num
  have hfl : ⌊(552.25 : ℝ)⌋ = (552 : ℤ) := by
    rw [Int.floor_eq_iff]
    constructor <;> norm_num
  have hfr : Int.fract (552.25 : ℝ) = 0.25 := by
    unfold Int.fract
    rw [hfl]
    norm_num
  have hrd : round (552.25 : ℝ) = (552 : ℤ) := by
    rw [round_eq, show (552.25 : ℝ) + 1 / 2 = 552.75 by norm_num, Int.floor_eq_iff]
    constructor <;> norm_num
  unfold round2
  rw [h100, hfr, if_neg (by norm_num), hrd]
  norm_num

/-- The degenerate D/λ = 1 configuration still builds a full pattern. -/
lemma c4_build_exists : ∃ s, f699_update_specs c4_dict = .ok s := by
  have htotal := f699gain_total_mid (p := c4_dict) (m := 7.7) (d := 1) rfl rfl rfl
    (by norm_num) (by rw [log10_one]; norm_num)
  have hmap : ∃ ls, mapME (f699loss_entry c4_dict 7.7) (List.range 361) = .ok ls := by
    refine mapME_ok_exists _ (fun a _ => ?_)
    obtain ⟨v, hv⟩ := htotal ((a : ℕ) : ℝ)
    exact ⟨round2 (7.7 - v), by simp [f699loss_entry, hv, bind, Except.bind]⟩
  obtain ⟨ls, hls⟩ := hmap
  refine ⟨⟨round2 7.7, List.range 361, ls, ls⟩, ?_⟩
  unfold f699_update_specs
  simp only [c4_dict, keyGet, bind, Except.bind] at hls ⊢
  rw [hls]

/-- C4 counterexample: the F.699 model configured with D/λ = 1 (derived peak
gain 7.7 dBi) successfully builds its pattern, yet at angle 100° the gain is
10 dBi > peak, so the recorded loss is -2.3 — far below -1e-9 — and at angle
47° the exact difference 7.7 - 2.1775 = 5.5225 is recorded as its 2-decimal
rounding 5.52, not the exact value. -/
theorem C4_counterexample :
    c4_config = (c4_dict, none) ∧
    f699gain c4_dict 100 = .ok (some 10) ∧
    round2 (7.7 - 10) = -2.3 ∧ (-2.3 : ℝ) < -(1 / 1000000000) ∧
    f699gain c4_dict 47 = .ok (some 2.1775) ∧
    round2 (7.7 - 2.1775) = 5.52 ∧ (5.52 : ℝ) ≠ 7.7 - 2.1775 ∧
    (∀ s : PatternSpecs, f699_update_specs c4_dict = .ok s →
      s.h_loss[100]? = some ((-2.3 : ℝ)) ∧ s.h_loss[47]? = some ((5.52 : ℝ))) ∧
    (∃ s, f699_update_specs c4_dict = .ok s) := by
  refine ⟨c4_config_eq, c4_gain_100, round2_neg23, by norm_num, c4_gain_47,
    round2_55225, by norm_num, ?_, c4_build_exists⟩
  intro s hs
  obtain ⟨dl, m, ls, hd, hm, hls, hseq⟩ := f699_update_specs_ok hs
  have hm7 : m = 7.7 := by
    have h2 : (some (7.7 : ℝ) : Option ℝ) = some m := by
      rw [← hm]
      rfl
    exact (Option.some.inj h2).symm
  subst hm7
  subst hseq
  constructor
  · obtain ⟨c, hc1, hc2⟩ := mapME_ok_get hls 100 100 (List.getElem?_range (by norm_num))
    have hentry : f699loss_entry c4_dict 7.7 100 = .ok ((-2.3 : ℝ)) := by
      unfold f699loss_entry
      rw [show ((100 : ℕ) : ℝ) = (100 : ℝ) by norm_num]
      simp [c4_gain_100, bind, Except.bind, round2_neg23]
    rw [hentry] at hc2
    cases hc2
    exact hc1
  · obtain ⟨c, hc1, hc2⟩ := mapME_ok_get hls 47 47 (List.getElem?_range (by norm_num))
    have hentry : f699loss_entry c4_dict 7.7 47 = .ok ((5.52 : ℝ)) := by
      unfold f699loss_entry
      rw [show ((47 : ℕ) : ℝ) = (47 : ℝ) by norm_num]
      simp [c4_gain_47, bind, Except.bind, round2_55225]
    rw [hentry] at hc2
    cases hc2
    exact hc1

/-- C4 witness: the S.465 instance with `d_to_l = 100` builds its pattern;
at angle 2° (defined) the entry is the rounded loss and is ≥ -1e-9, and at
angle 0° (below `phi_min = 1`) the entry is the `'n/a'` marker. -/
theorem C4_witness :
    ∃ s : PatternSpecsOpt, s465_update_specs s465_100 = .ok s ∧
      (∀ g : ℝ, s465gain s465_100 ((2 : ℕ) : ℝ) = .ok (some g) →
        s.h_loss[2]? = some (some (round2 (s.gain_field - g))) ∧
        -(1 / 1000000000) ≤ round2 (s.gain_field - g)) ∧
      (s465gain s465_100 ((0 : ℕ) : ℝ) = .ok none → s.h_loss[0]? = some none) := by
  have hd : s465_100.d_to_l = some 100 := rfl
  have hmin : phi_min_465 100 = 1 := by
    unfold phi_min_465
    rw [if_pos (by norm_num), show (100 : ℝ) * (1 / 100) = 1 by norm_num, max_self]
  have hg0 : s465gain s465_100 (phi_min_465 100) = .ok (some (32 - 25 * log10 1)) := by
    rw [hmin]
    have := s465gain_eval hd (φ := 1) (by norm_num) (by norm_num)
    rw [this, hmin]
    rw [if_neg (by norm_num), if_pos (by norm_num)]
  have hmap : ∃ ls,
      mapME (s465loss_entry s465_100 (round2 (32 - 25 * log10 1))) (List.range 361) =
        .ok ls := by
    refine mapME_ok_exists _ (fun a _ => ?_)
    obtain ⟨o, ho⟩ := s465gain_ok hd ((a : ℕ) : ℝ)
    cases o with
    | none => exact ⟨none, by simp [s465loss_entry, ho, bind, Except.bind]⟩
    | some g =>
      exact ⟨some (round2 (round2 (32 - 25 * log10 1) - g)),
        by simp [s465loss_entry, ho, bind, Except.bind]⟩
  obtain ⟨ls, hls⟩ := hmap
  have hbuild : s465_update_specs s465_100 =
      .ok ⟨round2 (32 - 25 * log10 1), List.range 361, ls, ls⟩ := by
    unfold s465_update_specs
    simp only [keyGet, bind, Except.bind, show s465_100.d_to_l = some 100 from rfl,
      hg0, hls]
  refine ⟨_, hbuild, ?_, ?_⟩
  · intro g hg
    exact (C4_loss_amended.2 s465_100 100 _ rfl (by norm_num) hbuild 2
      (by norm_num)).1 g hg
  · intro hg
    exact (C4_loss_amended.2 s465_100 100 _ rfl (by norm_num) hbuild 0
      (by norm_num)).2 hg

/-- C5 witness: a concrete F.699 configuration whose builder succeeds and
yields the 361 strictly increasing integer angles 0..360. -/
theorem C5_witness :
    ∃ s : PatternSpecs, f699_update_specs c4_dict = .ok s ∧
      s.angles = List.range 361 ∧ s.angles.length = 361 ∧
      List.Pairwise (· < ·) s.angles ∧ s.h_loss.length = 361 ∧
      s.v_loss.length = 361 := by
  obtain ⟨s, hs⟩ := c4_build_exists
  exact ⟨s, hs, C5_pattern_361_entries.1 c4_dict s hs⟩

end Antennas

end
